import Mathlib

/-!
# Verification of the ThreatDragonEnhanced T2T pipeline

Shallow embedding, in Lean 4, of the core T2T import pipeline of the
`BlueCloakForged/ThreatDragonEnhanced` repository:

* `src/td.vue/src/service/migration/t2t/models/dfdir.js` (DFDIR model),
* `src/td.vue/src/service/migration/t2t/converter/t2tConverter.js`,
* `src/td.vue/src/service/migration/t2t/layout/t2tLayout.js`,
* `src/td.vue/src/service/validation/cellValidator.js` and
  `validationResult.js`, the validation service,
* the entity extractor and its pattern library.

Conventions of the embedding:

* JavaScript numbers are modelled as exact rationals (`ℚ`); `Math.round`
  is JavaScript round-half-up, `⌊x + 1/2⌋`.
* JavaScript strings are Lean `String`s; `null`/`undefined`-able fields
  become `Option`; JS falsiness of a string is the test against `""`.
* Mutation is rendered as explicit state passing; JS objects become
  structures whose fields are exactly those the embedded code reads or
  writes.  `typeof v === 'number'` checks are identically true in this
  typed model and are noted where they occur.
* Fallible constructors (`throw new Error(...)`) return `Except String`.
-/

/-- JavaScript `Math.round`: round half towards positive infinity. -/
def jsRound (q : ℚ) : ℤ := ⌊q + 1/2⌋

/-- JavaScript `a.trim()`: strip whitespace from both ends.  Implemented
structurally over the character list so that it evaluates by kernel
reduction. -/
def jsTrim (s : String) : String :=
  String.mk (((s.data.dropWhile Char.isWhitespace).reverse.dropWhile
    Char.isWhitespace).reverse)

/-- JS string-falsiness as used on optional strings: absent or empty. -/
def jsStrFalsy : Option String → Bool
  | none => true
  | some s => s == ""

/-- JS `a || b` on an optional string operand (`''` and `null`/`undefined`
are falsy). -/
def jsOrStr (a b : Option String) : Option String :=
  if jsStrFalsy a then b else a

/-! ## DFDIR data model (`models/dfdir.js`) -/

/-- The metadata keys of a `DFDElement` that the DFDIR model and the
converter read (`role`, `extractedFrom`, `rawServices`); the JS object is
free-form, absent keys are `none`. -/
structure ElemMeta where
  role : Option String := none
  extractedFrom : Option String := none
  rawServices : Option String := none
  deriving Repr, DecidableEq

/-- `DFDElement` (dfdir.js lines 13–36). -/
structure DFDElement where
  id : String
  name : String
  type : String
  x : ℚ
  y : ℚ
  ipAddress : Option String
  services : List String
  metadata : ElemMeta
  confidence : ℚ
  source : String
  deriving Repr, DecidableEq

/-- `DFDElement.validate` (dfdir.js lines 42–66).  Checks are emitted in
source order.  The `typeof x/y !== 'number'` check is identically false in
this typed model (positions are rationals), so no position error can arise. -/
def DFDElement.validate (el : DFDElement) : List String :=
  (if el.id = "" then ["Element missing ID"] else []) ++
  (if el.name = "" ∨ jsTrim el.name = "" then ["Element missing name"] else []) ++
  (if ¬ (el.type ∈ (["actor", "process", "store"] : List String)) then
    ["Invalid element type: " ++ el.type] else []) ++
  (if el.confidence < 0 ∨ el.confidence > 100 then
    ["Confidence must be between 0 and 100"] else [])

/-- The metadata keys of a `DFDFlow` that the converter reads. -/
structure FlowMeta where
  extractedFrom : Option String := none
  sourceNode : Option String := none
  targetNode : Option String := none
  deriving Repr, DecidableEq

/-- `DFDFlow` (dfdir.js lines 108–129). -/
structure DFDFlow where
  id : String
  sourceId : String
  targetId : String
  protocol : String
  isEncrypted : Bool
  isPublicNetwork : Bool
  metadata : FlowMeta
  confidence : ℚ
  source : String
  deriving Repr, DecidableEq

/-- `DFDFlow.validate` (dfdir.js lines 135–159). -/
def DFDFlow.validate (f : DFDFlow) : List String :=
  (if f.id = "" then ["Flow missing ID"] else []) ++
  (if f.sourceId = "" then ["Flow missing source ID"] else []) ++
  (if f.targetId = "" then ["Flow missing target ID"] else []) ++
  (if f.sourceId = f.targetId then ["Flow source and target cannot be the same"] else []) ++
  (if f.confidence < 0 ∨ f.confidence > 100 then
    ["Confidence must be between 0 and 100"] else [])

/-- DFDIR-level metadata (`created` is an opaque timestamp string). -/
structure DFDIRMeta where
  created : String := ""
  source : Option String := none
  extractionMethod : Option String := none
  deriving Repr, DecidableEq

/-- `DFDIR` (dfdir.js lines 200–210). -/
structure DFDIR where
  name : String
  elements : List DFDElement
  flows : List DFDFlow
  metadata : DFDIRMeta
  deriving Repr, DecidableEq

/-- `DFDIR.getElementById` (dfdir.js lines 251–253); `null` is `none`. -/
def DFDIR.getElementById (d : DFDIR) (id : String) : Option DFDElement :=
  d.elements.find? (fun el => el.id = id)

/-- `DFDIR.addElement` (dfdir.js lines 216–227): rejects duplicate ids. -/
def DFDIR.addElement (d : DFDIR) (element : DFDElement) : Except String DFDIR :=
  if (d.elements.find? (fun el => el.id = element.id)).isSome then
    Except.error ("Element with ID " ++ element.id ++ " already exists")
  else
    Except.ok { d with elements := d.elements ++ [element] }

/-- `DFDIR.addFlow` (dfdir.js lines 233–244): rejects duplicate ids. -/
def DFDIR.addFlow (d : DFDIR) (flow : DFDFlow) : Except String DFDIR :=
  if (d.flows.find? (fun f => f.id = flow.id)).isSome then
    Except.error ("Flow with ID " ++ flow.id ++ " already exists")
  else
    Except.ok { d with flows := d.flows ++ [flow] }

/-- Result shape of `DFDIR.validate`. -/
structure DfdirValidation where
  valid : Bool
  errors : List String
  deriving Repr, DecidableEq

/-- Error lines that `DFDIR.validate` produces for one flow at one index:
the per-flow validation line, then the two referential-integrity lines
(dfdir.js lines 311–328). -/
def DFDIR.flowErrorLines (d : DFDIR) (i : ℕ) (f : DFDFlow) : List String :=
  (if f.validate ≠ [] then
    ["Flow " ++ toString i ++ ": " ++ String.intercalate ", " f.validate] else []) ++
  (if (d.getElementById f.sourceId).isNone then
    ["Flow " ++ toString i ++ ": Source element " ++ f.sourceId ++ " not found"] else []) ++
  (if (d.getElementById f.targetId).isNone then
    ["Flow " ++ toString i ++ ": Target element " ++ f.targetId ++ " not found"] else [])

/-- The `elements.forEach((element, index) => ...)` pass of
`DFDIR.validate` (dfdir.js lines 303–308), index threaded explicitly. -/
def DFDIR.elementErrors : ℕ → List DFDElement → List String
  | _, [] => []
  | i, el :: rest =>
    (if el.validate ≠ [] then
      ["Element " ++ toString i ++ " (" ++ el.name ++ "): " ++
        String.intercalate ", " el.validate]
    else []) ++ DFDIR.elementErrors (i + 1) rest

/-- The `flows.forEach((flow, index) => ...)` pass of `DFDIR.validate`
(dfdir.js lines 311–328), index threaded explicitly. -/
def DFDIR.flowErrors (d : DFDIR) : ℕ → List DFDFlow → List String
  | _, [] => []
  | i, f :: rest => d.flowErrorLines i f ++ d.flowErrors (i + 1) rest

/-- `DFDIR.validate` (dfdir.js lines 299–339): element errors, then
flow/reference errors, then the structural no-elements error; `valid` is
emptiness of the collected error list. -/
def DFDIR.validate (d : DFDIR) : DfdirValidation :=
  let errors :=
    DFDIR.elementErrors 0 d.elements ++
    d.flowErrors 0 d.flows ++
    (if d.elements = [] then ["DFDIR contains no elements"] else [])
  { valid := errors.isEmpty, errors := errors }

/-! ### Serialization (`toJSON` / `fromJSON`) -/

/-- The JSON form of a `DFDElement`, i.e. the argument object of the
`DFDElement` constructor: `id`, `name`, `type` are required, every other
key is optional with a constructor default (dfdir.js lines 14–25).
`ipAddress` distinguishes an absent key from a present `null`. -/
structure DFDElementInit where
  id : String
  name : String
  type : String
  x : Option ℚ := none
  y : Option ℚ := none
  ipAddress : Option (Option String) := none
  services : Option (List String) := none
  metadata : Option ElemMeta := none
  confidence : Option ℚ := none
  source : Option String := none
  deriving Repr, DecidableEq

/-- The `DFDElement` constructor with its defaults (dfdir.js lines 14–36). -/
def DFDElement.ofInit (j : DFDElementInit) : DFDElement :=
  { id := j.id, name := j.name, type := j.type,
    x := j.x.getD 100, y := j.y.getD 100,
    ipAddress := j.ipAddress.getD none,
    services := j.services.getD [],
    metadata := j.metadata.getD {},
    confidence := j.confidence.getD 100,
    source := j.source.getD "manual" }

/-- `DFDElement.toJSON` (dfdir.js lines 89–102): every key is emitted. -/
def DFDElement.toJSON (el : DFDElement) : DFDElementInit :=
  { id := el.id, name := el.name, type := el.type,
    x := some el.x, y := some el.y,
    ipAddress := some el.ipAddress,
    services := some el.services,
    metadata := some el.metadata,
    confidence := some el.confidence,
    source := some el.source }

/-- The JSON form / constructor argument of a `DFDFlow`
(dfdir.js lines 109–129). -/
structure DFDFlowInit where
  id : String
  sourceId : String
  targetId : String
  protocol : Option String := none
  isEncrypted : Option Bool := none
  isPublicNetwork : Option Bool := none
  metadata : Option FlowMeta := none
  confidence : Option ℚ := none
  source : Option String := none
  deriving Repr, DecidableEq

/-- The `DFDFlow` constructor with its defaults (dfdir.js lines 109–129):
`protocol = 'HTTPS'`, `isEncrypted = true`, `isPublicNetwork = false`,
`metadata = {}`, `confidence = 100`, `source = 'manual'`. -/
def DFDFlow.ofInit (j : DFDFlowInit) : DFDFlow :=
  { id := j.id, sourceId := j.sourceId, targetId := j.targetId,
    protocol := j.protocol.getD "HTTPS",
    isEncrypted := j.isEncrypted.getD true,
    isPublicNetwork := j.isPublicNetwork.getD false,
    metadata := j.metadata.getD {},
    confidence := j.confidence.getD 100,
    source := j.source.getD "manual" }

/-- `DFDFlow.toJSON` (dfdir.js lines 181–193). -/
def DFDFlow.toJSON (f : DFDFlow) : DFDFlowInit :=
  { id := f.id, sourceId := f.sourceId, targetId := f.targetId,
    protocol := some f.protocol,
    isEncrypted := some f.isEncrypted,
    isPublicNetwork := some f.isPublicNetwork,
    metadata := some f.metadata,
    confidence := some f.confidence,
    source := some f.source }

/-- The JSON form of a whole `DFDIR`. -/
structure DFDIRJson where
  name : String
  elements : List DFDElementInit
  flows : List DFDFlowInit
  metadata : DFDIRMeta
  deriving Repr, DecidableEq

/-- `DFDIR.toJSON` (dfdir.js lines 381–388). -/
def DFDIR.toJSON (d : DFDIR) : DFDIRJson :=
  { name := d.name,
    elements := d.elements.map DFDElement.toJSON,
    flows := d.flows.map DFDFlow.toJSON,
    metadata := d.metadata }

/-- `DFDIR.fromJSON` (dfdir.js lines 395–410): a fresh DFDIR named
`json.name`, metadata overwritten (the JSON metadata object is truthy),
then every element and flow re-added through `addElement`/`addFlow`,
which throw on duplicate ids. -/
def DFDIR.fromJSON (j : DFDIRJson) : Except String DFDIR := do
  let d0 : DFDIR := { name := j.name, elements := [], flows := [], metadata := j.metadata }
  let d1 ← j.elements.foldlM (fun d e => d.addElement (DFDElement.ofInit e)) d0
  let d2 ← j.flows.foldlM (fun d f => d.addFlow (DFDFlow.ofInit f)) d1
  return d2

/-! ### Lemmas for claim C1 -/

theorem elementValidate_eq_nil_iff (el : DFDElement) :
    el.validate = [] ↔
      (el.id ≠ "" ∧ jsTrim el.name ≠ "" ∧
        el.type ∈ (["actor", "process", "store"] : List String) ∧
        0 ≤ el.confidence ∧ el.confidence ≤ 100) := by
  unfold DFDElement.validate
  have htrim : jsTrim "" = "" := by decide
  constructor
  · intro h
    by_cases h1 : el.id = "" <;> by_cases h2 : el.name = "" ∨ jsTrim el.name = "" <;>
      by_cases h3 : el.type ∈ (["actor", "process", "store"] : List String) <;>
      by_cases h4 : el.confidence < 0 ∨ el.confidence > 100 <;>
      simp [h1, h2, h3, h4] at h <;>
      refine ⟨h1, ?_, h3, ?_, ?_⟩ <;>
      first
        | (intro hc; exact h2 (Or.inr hc))
        | (push_neg at h4; exact h4.1)
        | (push_neg at h4; exact h4.2)
  · rintro ⟨h1, h2, h3, h4, h5⟩
    have h2' : ¬ (el.name = "" ∨ jsTrim el.name = "") := by
      rintro (hn | hn)
      · exact h2 (by rw [hn]; exact htrim)
      · exact h2 hn
    have h4' : ¬ (el.confidence < 0 ∨ el.confidence > 100) := by
      rintro (hc | hc) <;> linarith
    simp [h1, h2', h3, h4']

theorem flowValidate_eq_nil_iff (f : DFDFlow) :
    f.validate = [] ↔
      (f.id ≠ "" ∧ f.sourceId ≠ "" ∧ f.targetId ≠ "" ∧ f.sourceId ≠ f.targetId ∧
        0 ≤ f.confidence ∧ f.confidence ≤ 100) := by
  unfold DFDFlow.validate
  constructor
  · intro h
    by_cases h1 : f.id = "" <;> by_cases h2 : f.sourceId = "" <;>
      by_cases h3 : f.targetId = "" <;> by_cases h4 : f.sourceId = f.targetId <;>
      by_cases h5 : f.confidence < 0 ∨ f.confidence > 100 <;>
      simp [h1, h2, h3, h4, h5] at h <;>
      push_neg at h5 <;> exact ⟨h1, h2, h3, h4, h5.1, h5.2⟩
  · rintro ⟨h1, h2, h3, h4, h5, h6⟩
    have h5' : ¬ (f.confidence < 0 ∨ f.confidence > 100) := by
      rintro (hc | hc) <;> linarith
    simp [h1, h2, h3, h4, h5']

theorem flowErrorLines_eq_nil_iff (d : DFDIR) (i : ℕ) (f : DFDFlow) :
    d.flowErrorLines i f = [] ↔
      (f.validate = [] ∧ (d.getElementById f.sourceId).isSome ∧
        (d.getElementById f.targetId).isSome) := by
  unfold DFDIR.flowErrorLines
  by_cases h1 : f.validate = [] <;>
    cases hs : d.getElementById f.sourceId <;>
    cases ht : d.getElementById f.targetId <;>
    simp [h1, hs, ht, Option.isNone, Option.isSome]

theorem elementErrors_eq_nil_iff (l : List DFDElement) :
    ∀ i, DFDIR.elementErrors i l = [] ↔ ∀ el ∈ l, el.validate = [] := by
  induction l with
  | nil => intro i; simp [DFDIR.elementErrors]
  | cons el rest ih =>
    intro i
    by_cases h : el.validate = [] <;>
      simp [DFDIR.elementErrors, h, ih (i + 1)]

theorem flowErrors_eq_nil_iff (d : DFDIR) (l : List DFDFlow) :
    ∀ i, d.flowErrors i l = [] ↔
      ∀ f ∈ l, f.validate = [] ∧ (d.getElementById f.sourceId).isSome ∧
        (d.getElementById f.targetId).isSome := by
  induction l with
  | nil => intro i; simp [DFDIR.flowErrors]
  | cons f rest ih =>
    intro i
    rw [DFDIR.flowErrors, List.append_eq_nil]
    simp only [List.mem_cons, forall_eq_or_imp]
    rw [flowErrorLines_eq_nil_iff, ih (i + 1)]

theorem getElementById_isSome_iff (d : DFDIR) (id : String) :
    (d.getElementById id).isSome ↔ ∃ el ∈ d.elements, el.id = id := by
  unfold DFDIR.getElementById
  rw [List.find?_isSome]
  simp

/-- C1: `DFDIR.validate().valid` is true iff every element individually
validates (id present, name non-blank after trimming, type among
actor/process/store, confidence in `[0,100]`; positions are numeric by
typing), every flow individually validates (ids present, source ≠ target,
confidence in range), every flow's endpoints resolve to an existing
element id, and at least one element is present. -/
theorem C1_dfdir_validate_iff (d : DFDIR) :
    (d.validate.valid = true) ↔
      ((∀ el ∈ d.elements, el.id ≠ "" ∧ jsTrim el.name ≠ "" ∧
          el.type ∈ (["actor", "process", "store"] : List String) ∧
          0 ≤ el.confidence ∧ el.confidence ≤ 100) ∧
        (∀ f ∈ d.flows, f.id ≠ "" ∧ f.sourceId ≠ "" ∧ f.targetId ≠ "" ∧
          f.sourceId ≠ f.targetId ∧ 0 ≤ f.confidence ∧ f.confidence ≤ 100) ∧
        (∀ f ∈ d.flows, (∃ el ∈ d.elements, el.id = f.sourceId) ∧
          (∃ el ∈ d.elements, el.id = f.targetId)) ∧
        d.elements ≠ []) := by
  unfold DFDIR.validate
  simp only [List.isEmpty_iff, List.append_eq_nil]
  rw [elementErrors_eq_nil_iff, flowErrors_eq_nil_iff]
  constructor
  · rintro ⟨⟨hel, hfl⟩, hstr⟩
    have hne : d.elements ≠ [] := by
      intro hnil
      rw [if_pos hnil] at hstr
      exact List.cons_ne_nil _ _ hstr
    refine ⟨fun el hmem => (elementValidate_eq_nil_iff el).mp (hel el hmem),
      fun f hmem => (flowValidate_eq_nil_iff f).mp (hfl f hmem).1,
      fun f hmem => ⟨(getElementById_isSome_iff d _).mp (hfl f hmem).2.1,
        (getElementById_isSome_iff d _).mp (hfl f hmem).2.2⟩, hne⟩
  · rintro ⟨hel, hfl, href, hne⟩
    refine ⟨⟨fun el hmem => (elementValidate_eq_nil_iff el).mpr (hel el hmem),
      fun f hmem => ⟨(flowValidate_eq_nil_iff f).mpr (hfl f hmem),
        (getElementById_isSome_iff d _).mpr (href f hmem).1,
        (getElementById_isSome_iff d _).mpr (href f hmem).2⟩⟩, ?_⟩
    rw [if_neg hne]

/-! ### Claim C7: JSON round-trip -/

theorem ofInit_toJSON_elem (el : DFDElement) :
    DFDElement.ofInit el.toJSON = el := rfl

theorem ofInit_toJSON_flow (f : DFDFlow) :
    DFDFlow.ofInit f.toJSON = f := rfl

theorem addElement_foldlM (l : List DFDElement) : ∀ (base : DFDIR),
    (base.elements.map DFDElement.id ++ l.map DFDElement.id).Nodup →
    l.foldlM DFDIR.addElement base =
      Except.ok { base with elements := base.elements ++ l } := by
  induction l with
  | nil =>
    intro base _
    simp only [List.foldlM_nil, List.append_nil]
    rfl
  | cons e rest ih =>
    intro base hnd
    have hnotin : e.id ∉ base.elements.map DFDElement.id := by
      rw [List.nodup_append] at hnd
      exact fun hmem => hnd.2.2 hmem (by simp)
    have hfind : base.elements.find? (fun el => el.id = e.id) = none := by
      rw [List.find?_eq_none]
      intro el hmem
      simp only [decide_eq_true_eq]
      exact fun heq => hnotin (List.mem_map.mpr ⟨el, hmem, heq⟩)
    have hstep : base.addElement e =
        Except.ok { base with elements := base.elements ++ [e] } := by
      unfold DFDIR.addElement
      rw [hfind]
      rfl
    have hnd' : (({ base with elements := base.elements ++ [e] } : DFDIR).elements.map
        DFDElement.id ++ rest.map DFDElement.id).Nodup := by
      simpa using hnd
    calc (e :: rest).foldlM DFDIR.addElement base
        = base.addElement e >>= fun b => rest.foldlM DFDIR.addElement b := by
          rw [List.foldlM_cons]
      _ = rest.foldlM DFDIR.addElement { base with elements := base.elements ++ [e] } := by
          rw [hstep]; rfl
      _ = Except.ok { base with elements := base.elements ++ [e] ++ rest } := ih _ hnd'
      _ = Except.ok { base with elements := base.elements ++ (e :: rest) } := by
          rw [List.append_assoc]; rfl

theorem addFlow_foldlM (l : List DFDFlow) : ∀ (base : DFDIR),
    (base.flows.map DFDFlow.id ++ l.map DFDFlow.id).Nodup →
    l.foldlM DFDIR.addFlow base =
      Except.ok { base with flows := base.flows ++ l } := by
  induction l with
  | nil =>
    intro base _
    simp only [List.foldlM_nil, List.append_nil]
    rfl
  | cons f rest ih =>
    intro base hnd
    have hnotin : f.id ∉ base.flows.map DFDFlow.id := by
      rw [List.nodup_append] at hnd
      exact fun hmem => hnd.2.2 hmem (by simp)
    have hfind : base.flows.find? (fun g => g.id = f.id) = none := by
      rw [List.find?_eq_none]
      intro g hmem
      simp only [decide_eq_true_eq]
      exact fun heq => hnotin (List.mem_map.mpr ⟨g, hmem, heq⟩)
    have hstep : base.addFlow f =
        Except.ok { base with flows := base.flows ++ [f] } := by
      unfold DFDIR.addFlow
      rw [hfind]
      rfl
    have hnd' : (({ base with flows := base.flows ++ [f] } : DFDIR).flows.map
        DFDFlow.id ++ rest.map DFDFlow.id).Nodup := by
      simpa using hnd
    calc (f :: rest).foldlM DFDIR.addFlow base
        = base.addFlow f >>= fun b => rest.foldlM DFDIR.addFlow b := by
          rw [List.foldlM_cons]
      _ = rest.foldlM DFDIR.addFlow { base with flows := base.flows ++ [f] } := by
          rw [hstep]; rfl
      _ = Except.ok { base with flows := base.flows ++ [f] ++ rest } := ih _ hnd'
      _ = Except.ok { base with flows := base.flows ++ (f :: rest) } := by
          rw [List.append_assoc]; rfl

/-- C7: for a DFDIR whose element ids and flow ids are duplicate-free (the
invariant that `addElement`/`addFlow` maintain), `DFDIR.fromJSON(toJSON d)`
succeeds and reproduces the element list and flow list (indeed the whole
DFDIR) exactly. -/
theorem except_bind_ok {α β : Type} (a : α) (k : α → Except String β) :
    (Except.ok a >>= k) = k a := rfl

/-- C7: for a DFDIR whose element ids and flow ids are duplicate-free (the
invariant that `addElement`/`addFlow` maintain), `DFDIR.fromJSON(toJSON d)`
succeeds and reproduces the element list and flow list (indeed the whole
DFDIR) exactly. -/
theorem C7_fromJSON_toJSON_roundtrip (d : DFDIR)
    (he : (d.elements.map DFDElement.id).Nodup)
    (hf : (d.flows.map DFDFlow.id).Nodup) :
    DFDIR.fromJSON d.toJSON = Except.ok d := by
  have hfe : ∀ (b : DFDIR),
      (d.elements.map DFDElement.toJSON).foldlM
        (fun x e => x.addElement (DFDElement.ofInit e)) b =
      d.elements.foldlM DFDIR.addElement b := by
    intro b
    rw [List.foldlM_map]
    congr 1
  have hff : ∀ (b : DFDIR),
      (d.flows.map DFDFlow.toJSON).foldlM
        (fun x f => x.addFlow (DFDFlow.ofInit f)) b =
      d.flows.foldlM DFDIR.addFlow b := by
    intro b
    rw [List.foldlM_map]
    congr 1
  simp only [DFDIR.fromJSON, DFDIR.toJSON]
  rw [hfe, addElement_foldlM d.elements _ (by simpa using he), except_bind_ok]
  rw [hff, addFlow_foldlM d.flows _ (by simpa using hf), except_bind_ok]
  rfl

/-- Demonstration element used by concrete witnesses. -/
def demoElement : DFDElement :=
  ⟨"e1", "Web-01", "process", 100, 100, some "10.0.1.100", ["web"], {}, 95, "text"⟩

/-- Demonstration flow used by concrete witnesses. -/
def demoFlow : DFDFlow :=
  ⟨"f1", "e1", "e1x", "HTTPS", true, false, {}, 80, "text"⟩

/-- Demonstration DFDIR used by concrete witnesses. -/
def demoDFDIR : DFDIR :=
  ⟨"demo", [demoElement], [demoFlow], {}⟩

/-- Concrete witness for C7: a one-element, one-flow DFDIR round-trips. -/
theorem C7_fromJSON_toJSON_roundtrip_witness :
    DFDIR.fromJSON demoDFDIR.toJSON = Except.ok demoDFDIR :=
  C7_fromJSON_toJSON_roundtrip demoDFDIR (by decide) (by decide)

/-! ### Claim C10: DFDFlow constructor defaults -/

/-- C10: a `DFDFlow` constructed without explicit `protocol`,
`isEncrypted`, or `isPublicNetwork` defaults to protocol `'HTTPS'`,
`isEncrypted = true`, `isPublicNetwork = false` (dfdir.js lines 113–115). -/
theorem C10_flow_constructor_defaults (j : DFDFlowInit)
    (hp : j.protocol = none) (he : j.isEncrypted = none)
    (hn : j.isPublicNetwork = none) :
    (DFDFlow.ofInit j).protocol = "HTTPS" ∧
      (DFDFlow.ofInit j).isEncrypted = true ∧
      (DFDFlow.ofInit j).isPublicNetwork = false := by
  simp [DFDFlow.ofInit, hp, he, hn]

/-- Concrete witness for C10. -/
theorem C10_flow_constructor_defaults_witness :
    (DFDFlow.ofInit { id := "f1", sourceId := "a", targetId := "b" }).protocol = "HTTPS" ∧
      (DFDFlow.ofInit { id := "f1", sourceId := "a", targetId := "b" }).isEncrypted = true ∧
      (DFDFlow.ofInit { id := "f1", sourceId := "a", targetId := "b" }).isPublicNetwork = false :=
  C10_flow_constructor_defaults _ rfl rfl rfl

/-! ## Validation result type (`validationResult.js`)

`createError` also stamps a `timestamp` (`new Date().toISOString()`) and a
free-form `context` object; both are opaque provenance never read by the
embedded logic and are omitted from the model. -/

/-- One validation issue (`createError`, validationResult.js lines 50–67). -/
structure VError where
  code : String
  message : String
  path : String
  severity : String
  suggestion : String
  deriving Repr, DecidableEq

/-- A validation result (`createResult`, validationResult.js lines 74–133);
`validatedAt` is an opaque timestamp and is omitted. -/
structure VResult where
  valid : Bool
  errors : List VError
  warnings : List VError
  info : List VError
  src : String
  deriving Repr, DecidableEq

/-- `createResult({ source })` with all defaults. -/
def createResult (src : String) : VResult :=
  { valid := true, errors := [], warnings := [], info := [], src := src }

/-- `result.addError` (validationResult.js lines 96–99). -/
def VResult.addError (r : VResult) (e : VError) : VResult :=
  { r with errors := r.errors ++ [e], valid := false }

/-- `result.addWarning` (validationResult.js lines 100–102). -/
def VResult.addWarning (r : VResult) (w : VError) : VResult :=
  { r with warnings := r.warnings ++ [w] }

/-- `result.merge` (validationResult.js lines 106–114). -/
def VResult.merge (r o : VResult) : VResult :=
  { r with
      errors := r.errors ++ o.errors,
      warnings := r.warnings ++ o.warnings,
      info := r.info ++ o.info,
      valid := if o.errors ≠ [] then false else r.valid }

/-- The `UNKNOWN_ERROR` item that `fromStringErrors` builds per string. -/
def unknownError (msg : String) : VError :=
  { code := "UNKNOWN_ERROR", message := msg, path := "",
    severity := "error", suggestion := "" }

/-- `fromStringErrors` (validationResult.js lines 173–185): each string
becomes an `UNKNOWN_ERROR`-coded error carrying the string as message. -/
def fromStringErrors (errorStrings : List String) (src : String) : VResult :=
  errorStrings.foldl
    (fun r msg => r.addError (unknownError msg))
    { valid := errorStrings = [], errors := [], warnings := [], info := [], src := src }

/-! ## Cell validator (`cellValidator.js`) -/

/-- `Object.values(ValidShapes)` in declaration order (cellValidator.js
lines 11–26); the boundary-curve constant carries the source's literal
misspelling `trust-broundary-curve`. -/
def ValidShapes : List String :=
  ["actor", "process", "store", "flow", "trust-boundary-box",
    "trust-broundary-curve", "td-text-block"]

/-- `ShapeAliases` as an ordered key/value list (cellValidator.js
lines 31–38). -/
def ShapeAliases : List (String × String) :=
  [("tm.Actor", "actor"), ("tm.Process", "process"), ("tm.Store", "store"),
    ("tm.Flow", "flow"), ("tm.Boundary", "trust-boundary-box"),
    ("tm.BoundaryBox", "trust-boundary-box")]

/-- `isValidShape` (cellValidator.js lines 43–47): falsy shapes are
rejected, then membership in the shape values or the alias keys. -/
def isValidShape (shape : String) : Bool :=
  if shape = "" then false
  else ValidShapes.contains shape || (ShapeAliases.map Prod.fst).contains shape

/-- An X6 edge endpoint reference; the validator reads only its `cell`
key (an `id` key, as the converter emits, is never inspected). -/
structure CellRef where
  id : Option String := none
  cell : Option String := none
  deriving Repr, DecidableEq

/-- A cell position (`typeof x === 'number'` holds by typing). -/
structure CellPos where
  x : ℚ
  y : ℚ
  deriving Repr, DecidableEq

/-- A cell size. -/
structure CellSize where
  width : ℚ
  height : ℚ
  deriving Repr, DecidableEq

/-- A renderable cell, with exactly the properties `cellValidator.js`
reads.  `id = ""` and `shape = ""` model the falsy (missing or empty)
cases; `data` records presence of the data object. -/
structure Cell where
  id : String := ""
  shape : String := ""
  zIndex : Option ℚ := none
  position : Option CellPos := none
  size : Option CellSize := none
  data : Bool := false
  source : Option CellRef := none
  target : Option CellRef := none
  deriving Repr, DecidableEq

/-- `isEdgeCell` (cellValidator.js lines 62–66): flow shape, the
(misspelled) boundary-curve shape, or a present source or target. -/
def isEdgeCell (c : Cell) : Bool :=
  c.shape = "flow" || c.shape = "trust-broundary-curve" ||
    c.source.isSome || c.target.isSome


/-- The `MISSING_POSITION` error of `validateNodeCell`. -/
def missingPositionError (i : ℕ) : VError :=
  { code := "MISSING_POSITION",
    message := "Node cell " ++ toString i ++ " is missing valid position \x7bx, y\x7d",
    path := "cells[" ++ toString i ++ "].position",
    severity := "error",
    suggestion := "Add position object with numeric x and y values" }

/-- The `MISSING_SIZE` error of `validateNodeCell`. -/
def missingSizeError (i : ℕ) : VError :=
  { code := "MISSING_SIZE",
    message := "Node cell " ++ toString i ++ " is missing valid size \x7bwidth, height\x7d",
    path := "cells[" ++ toString i ++ "].size",
    severity := "error",
    suggestion := "Add size object with numeric width and height values" }

/-- The missing-`data` warning of `validateNodeCell`. -/
def missingDataWarning (i : ℕ) : VError :=
  { code := "MISSING_REQUIRED",
    message := "Node cell " ++ toString i ++ " is missing \x27data\x27 object",
    path := "cells[" ++ toString i ++ "].data",
    severity := "warning",
    suggestion := "Add data object with name, type, and other properties" }

/-- `validateNodeCell` (cellValidator.js lines 133–164): position and size
are required (their numeric-component checks hold by typing), a missing
data object is only a warning. -/
def validateNodeCell (c : Cell) (i : ℕ) (r : VResult) : VResult :=
  let r1 := if c.position.isNone then r.addError (missingPositionError i) else r
  let r2 := if c.size.isNone then r1.addError (missingSizeError i) else r1
  if ¬ c.data then r2.addWarning (missingDataWarning i) else r2

/-- The `INVALID_SOURCE` error of `validateEdgeCell`. -/
def missingSourceError (i : ℕ) : VError :=
  { code := "INVALID_SOURCE",
    message := "Edge cell " ++ toString i ++ " is missing \x27source\x27 property",
    path := "cells[" ++ toString i ++ "].source",
    severity := "error",
    suggestion := "Add source object with cell ID reference" }

/-- The `INVALID_TARGET` error of `validateEdgeCell`. -/
def missingTargetError (i : ℕ) : VError :=
  { code := "INVALID_TARGET",
    message := "Edge cell " ++ toString i ++ " is missing \x27target\x27 property",
    path := "cells[" ++ toString i ++ "].target",
    severity := "error",
    suggestion := "Add target object with cell ID reference" }

/-- The `ORPHAN_FLOW` warning for a dangling source reference. -/
def orphanSourceWarning (i : ℕ) (sid : String) : VError :=
  { code := "ORPHAN_FLOW",
    message := "Edge cell " ++ toString i ++
      " references non-existent source cell \x27" ++ sid ++ "\x27",
    path := "cells[" ++ toString i ++ "].source.cell",
    severity := "warning",
    suggestion := "Ensure source cell ID exists in the diagram" }

/-- The `ORPHAN_FLOW` warning for a dangling target reference. -/
def orphanTargetWarning (i : ℕ) (tid : String) : VError :=
  { code := "ORPHAN_FLOW",
    message := "Edge cell " ++ toString i ++
      " references non-existent target cell \x27" ++ tid ++ "\x27",
    path := "cells[" ++ toString i ++ "].target.cell",
    severity := "warning",
    suggestion := "Ensure target cell ID exists in the diagram" }

/-- The source-side orphan warnings that `validateEdgeCell` emits: a
present reference whose `cell` key is truthy, with a non-empty cell map
that does not contain it (cellValidator.js line 178). -/
def srcOrphans (c : Cell) (i : ℕ) (keys : List String) : List VError :=
  match c.source with
  | none => []
  | some ref => match ref.cell with
    | none => []
    | some sid =>
      if sid ≠ "" ∧ keys ≠ [] ∧ ¬ keys.contains sid then
        [orphanSourceWarning i sid]
      else []

/-- The target-side orphan warnings that `validateEdgeCell` emits
(cellValidator.js line 196). -/
def tgtOrphans (c : Cell) (i : ℕ) (keys : List String) : List VError :=
  match c.target with
  | none => []
  | some ref => match ref.cell with
    | none => []
    | some tid =>
      if tid ≠ "" ∧ keys ≠ [] ∧ ¬ keys.contains tid then
        [orphanTargetWarning i tid]
      else []

/-- `validateEdgeCell` (cellValidator.js lines 169–205).  `keys` is the
key set of the `cellMap` built by `validateCells`; `cellMap.size > 0` is
its non-emptiness, `cellMap.has` is membership.  A missing endpoint is an
error; a dangling (orphan) reference only a warning. -/
def validateEdgeCell (c : Cell) (i : ℕ) (keys : List String) (r : VResult) : VResult :=
  let r1 := match c.source with
    | none => r.addError (missingSourceError i)
    | some ref => match ref.cell with
      | some sid =>
        if sid ≠ "" ∧ keys ≠ [] ∧ ¬ keys.contains sid then
          r.addWarning (orphanSourceWarning i sid)
        else r
      | none => r
  match c.target with
  | none => r1.addError (missingTargetError i)
  | some ref => match ref.cell with
    | some tid =>
      if tid ≠ "" ∧ keys ≠ [] ∧ ¬ keys.contains tid then
        r1.addWarning (orphanTargetWarning i tid)
      else r1
    | none => r1

/-- The `MISSING_ID` error of `validateCell`. -/
def missingIdError (i : ℕ) : VError :=
  { code := "MISSING_ID",
    message := "Cell " ++ toString i ++ " is missing required \x27id\x27 property",
    path := "cells[" ++ toString i ++ "].id",
    severity := "error",
    suggestion := "Add a unique UUID as the cell id" }

/-- The `MISSING_SHAPE` error of `validateCell`. -/
def missingShapeError (i : ℕ) : VError :=
  { code := "MISSING_SHAPE",
    message := "Cell " ++ toString i ++ " is missing required \x27shape\x27 property",
    path := "cells[" ++ toString i ++ "].shape",
    severity := "error",
    suggestion := "Add shape property with value like \x27actor\x27, \x27process\x27, \x27store\x27, or \x27flow\x27" }

/-- The `INVALID_SHAPE` error of `validateCell`. -/
def invalidShapeError (i : ℕ) (shape : String) : VError :=
  { code := "INVALID_SHAPE",
    message := "Cell " ++ toString i ++ " has invalid shape \x27" ++ shape ++ "\x27",
    path := "cells[" ++ toString i ++ "].shape",
    severity := "error",
    suggestion := "Use one of: " ++ String.intercalate ", " ValidShapes }

/-- The missing-`zIndex` warning of `validateCell`. -/
def missingZIndexWarning (i : ℕ) : VError :=
  { code := "MISSING_REQUIRED",
    message := "Cell " ++ toString i ++ " is missing \x27zIndex\x27 property",
    path := "cells[" ++ toString i ++ "].zIndex",
    severity := "warning",
    suggestion := "Add zIndex for proper layering (0 for edges, 1 for nodes)" }

/-- `validateCell` (cellValidator.js lines 75–128). -/
def validateCell (c : Cell) (i : ℕ) (keys : List String) : VResult :=
  let r0 := createResult ("cell[" ++ toString i ++ "]")
  let r1 := if c.id = "" then r0.addError (missingIdError i) else r0
  let r2 := if c.shape = "" then r1.addError (missingShapeError i)
    else if ¬ isValidShape c.shape then r1.addError (invalidShapeError i c.shape)
    else r1
  let r3 := if c.zIndex.isNone then r2.addWarning (missingZIndexWarning i) else r2
  let r4 := if c.shape ≠ "" ∧ ¬ isEdgeCell c then validateNodeCell c i r3 else r3
  if isEdgeCell c then validateEdgeCell c i keys r4 else r4

/-- The `EMPTY_MODEL` warning of `validateCells`. -/
def emptyModelWarning : VError :=
  { code := "EMPTY_MODEL",
    message := "Diagram contains no cells",
    path := "cells",
    severity := "warning",
    suggestion := "Add nodes and flows to the diagram" }

/-- The `cells.forEach` pass of `validateCells` (cellValidator.js
lines 245–248), with the running result threaded. -/
def validateCellsGo (keys : List String) : ℕ → VResult → List Cell → VResult
  | _, r, [] => r
  | i, r, c :: rest => validateCellsGo keys (i + 1) (r.merge (validateCell c i keys)) rest

/-- `validateCells` (cellValidator.js lines 212–251).  The cells argument
is a list by typing, so the not-an-array branch cannot fire; the cell map
key set collects the ids of cells with a truthy id. -/
def validateCells (cells : List Cell) : VResult :=
  let r0 := createResult "cellValidator"
  if cells = [] then r0.addWarning emptyModelWarning
  else
    let keys := (cells.filter (fun c => c.id ≠ "")).map Cell.id
    validateCellsGo keys 0 r0 cells

/-! ### Claim C9: the misspelled boundary-curve shape -/

/-- C9: the accepted shape vocabulary contains the literal misspelled
constant `trust-broundary-curve` and does not accept the correctly
spelled `trust-boundary-curve`. -/
theorem C9_misspelled_boundary_curve :
    isValidShape "trust-broundary-curve" = true ∧
      isValidShape "trust-boundary-curve" = false := by
  decide

/-! ### Claim C8: dangling edge references are warnings, not errors -/

theorem validateNodeCell_errors (c : Cell) (i : ℕ) (r : VResult) :
    (validateNodeCell c i r).errors =
      r.errors ++ (if c.position.isNone then [missingPositionError i] else []) ++
        (if c.size.isNone then [missingSizeError i] else []) := by
  unfold validateNodeCell
  split_ifs <;> simp [VResult.addError, VResult.addWarning]

theorem validateNodeCell_warnings (c : Cell) (i : ℕ) (r : VResult) :
    (validateNodeCell c i r).warnings =
      r.warnings ++ (if ¬ c.data then [missingDataWarning i] else []) := by
  unfold validateNodeCell
  split_ifs <;> simp [VResult.addError, VResult.addWarning]

theorem validateEdgeCell_errors (c : Cell) (i : ℕ) (keys : List String) (r : VResult) :
    (validateEdgeCell c i keys r).errors =
      r.errors ++ (if c.source.isNone then [missingSourceError i] else []) ++
        (if c.target.isNone then [missingTargetError i] else []) := by
  unfold validateEdgeCell
  rcases hs : c.source with _ | ref <;> rcases ht : c.target with _ | ref2
  · simp [hs, ht, VResult.addError]
  · rcases hc2 : ref2.cell with _ | tid
    · simp [hs, ht, hc2, VResult.addError]
    · simp only [hs, ht, hc2]
      split_ifs <;> simp_all [VResult.addError, VResult.addWarning]
  · rcases hc1 : ref.cell with _ | sid
    · simp [hs, ht, hc1, VResult.addError]
    · simp only [hs, ht, hc1]
      split_ifs <;> simp_all [VResult.addError, VResult.addWarning]
  · rcases hc1 : ref.cell with _ | sid <;> rcases hc2 : ref2.cell with _ | tid
    · simp [hs, ht, hc1, hc2]
    · simp only [hs, ht, hc1, hc2]
      split_ifs <;> simp_all [VResult.addError, VResult.addWarning]
    · simp only [hs, ht, hc1, hc2]
      split_ifs <;> simp_all [VResult.addError, VResult.addWarning]
    · simp only [hs, ht, hc1, hc2]
      split_ifs <;> simp_all [VResult.addError, VResult.addWarning]

theorem validateEdgeCell_warnings (c : Cell) (i : ℕ) (keys : List String) (r : VResult) :
    (validateEdgeCell c i keys r).warnings =
      r.warnings ++ srcOrphans c i keys ++ tgtOrphans c i keys := by
  unfold validateEdgeCell srcOrphans tgtOrphans
  rcases hs : c.source with _ | ref <;> rcases ht : c.target with _ | ref2
  · simp [hs, ht, VResult.addError]
  · rcases hc2 : ref2.cell with _ | tid
    · simp [hs, ht, hc2, VResult.addError]
    · simp only [hs, ht, hc2]
      split_ifs <;> simp_all [VResult.addError, VResult.addWarning]
  · rcases hc1 : ref.cell with _ | sid
    · simp [hs, ht, hc1, VResult.addError]
    · simp only [hs, ht, hc1]
      split_ifs <;> simp_all [VResult.addError, VResult.addWarning]
  · rcases hc1 : ref.cell with _ | sid <;> rcases hc2 : ref2.cell with _ | tid
    · simp [hs, ht, hc1, hc2]
    · simp only [hs, ht, hc1, hc2]
      split_ifs <;> simp_all [VResult.addError, VResult.addWarning]
    · simp only [hs, ht, hc1, hc2]
      split_ifs <;> simp_all [VResult.addError, VResult.addWarning]
    · simp only [hs, ht, hc1, hc2]
      split_ifs <;> simp_all [VResult.addError, VResult.addWarning]

theorem validateCell_errors (c : Cell) (i : ℕ) (keys : List String) :
    (validateCell c i keys).errors =
      (if c.id = "" then [missingIdError i] else []) ++
      (if c.shape = "" then [missingShapeError i]
        else if ¬ isValidShape c.shape then [invalidShapeError i c.shape] else []) ++
      (if c.shape ≠ "" ∧ ¬ isEdgeCell c then
        (if c.position.isNone then [missingPositionError i] else []) ++
          (if c.size.isNone then [missingSizeError i] else [])
        else []) ++
      (if isEdgeCell c then
        (if c.source.isNone then [missingSourceError i] else []) ++
          (if c.target.isNone then [missingTargetError i] else [])
        else []) := by
  unfold validateCell
  split_ifs <;>
    simp_all [validateNodeCell_errors, validateEdgeCell_errors, createResult,
      VResult.addError, VResult.addWarning]

theorem validateCell_warnings (c : Cell) (i : ℕ) (keys : List String) :
    (validateCell c i keys).warnings =
      (if c.zIndex.isNone then [missingZIndexWarning i] else []) ++
      (if c.shape ≠ "" ∧ ¬ isEdgeCell c then
        (if ¬ c.data then [missingDataWarning i] else []) else []) ++
      (if isEdgeCell c then srcOrphans c i keys ++ tgtOrphans c i keys else []) := by
  unfold validateCell
  split_ifs <;>
    simp_all [validateNodeCell_warnings, validateEdgeCell_warnings, createResult,
      VResult.addError, VResult.addWarning]

/-- The per-cell error lines of the `validateCells` pass, in order. -/
def cellsErrors (keys : List String) : ℕ → List Cell → List VError
  | _, [] => []
  | i, c :: rest => (validateCell c i keys).errors ++ cellsErrors keys (i + 1) rest

/-- The per-cell warning lines of the `validateCells` pass, in order. -/
def cellsWarnings (keys : List String) : ℕ → List Cell → List VError
  | _, [] => []
  | i, c :: rest => (validateCell c i keys).warnings ++ cellsWarnings keys (i + 1) rest

theorem validateCellsGo_errors (keys : List String) :
    ∀ (l : List Cell) (i : ℕ) (r : VResult),
      (validateCellsGo keys i r l).errors = r.errors ++ cellsErrors keys i l := by
  intro l
  induction l with
  | nil => intro i r; simp [validateCellsGo, cellsErrors]
  | cons c rest ih =>
    intro i r
    rw [validateCellsGo, ih, cellsErrors]
    simp [VResult.merge]

theorem validateCellsGo_warnings (keys : List String) :
    ∀ (l : List Cell) (i : ℕ) (r : VResult),
      (validateCellsGo keys i r l).warnings = r.warnings ++ cellsWarnings keys i l := by
  intro l
  induction l with
  | nil => intro i r; simp [validateCellsGo, cellsWarnings]
  | cons c rest ih =>
    intro i r
    rw [validateCellsGo, ih, cellsWarnings]
    simp [VResult.merge]

theorem validateCellsGo_valid (keys : List String) :
    ∀ (l : List Cell) (i : ℕ) (r : VResult),
      (validateCellsGo keys i r l).valid =
        (r.valid && (cellsErrors keys i l).isEmpty) := by
  intro l
  induction l with
  | nil => intro i r; simp [validateCellsGo, cellsErrors]
  | cons c rest ih =>
    intro i r
    rw [validateCellsGo, ih, cellsErrors]
    rcases hv : r.valid <;>
      rcases he : (validateCell c i keys).errors with _ | ⟨e, es⟩ <;>
      simp [VResult.merge, hv, he]

theorem validateCells_errors_of_ne_nil (cells : List Cell) (h : cells ≠ []) :
    (validateCells cells).errors =
      cellsErrors ((cells.filter (fun c => c.id ≠ "")).map Cell.id) 0 cells := by
  unfold validateCells
  rw [if_neg h, validateCellsGo_errors]
  simp [createResult]

theorem validateCells_warnings_of_ne_nil (cells : List Cell) (h : cells ≠ []) :
    (validateCells cells).warnings =
      cellsWarnings ((cells.filter (fun c => c.id ≠ "")).map Cell.id) 0 cells := by
  unfold validateCells
  rw [if_neg h, validateCellsGo_warnings]
  simp [createResult]

theorem validateCells_valid_eq_isEmpty (cells : List Cell) :
    (validateCells cells).valid = (validateCells cells).errors.isEmpty := by
  unfold validateCells
  by_cases h : cells = []
  · rw [if_pos h]
    simp [createResult, VResult.addWarning]
  · rw [if_neg h]
    simp [createResult, validateCellsGo_valid, validateCellsGo_errors]

theorem mem_cellsWarnings (keys : List String) :
    ∀ (l : List Cell) (i0 j : ℕ) (c : Cell) (w : VError),
      l[j]? = some c → w ∈ (validateCell c (i0 + j) keys).warnings →
      w ∈ cellsWarnings keys i0 l := by
  intro l
  induction l with
  | nil => intro i0 j c w hget; simp at hget
  | cons c0 rest ih =>
    intro i0 j c w hget hw
    cases j with
    | zero =>
      simp only [List.getElem?_cons_zero, Option.some.injEq] at hget
      subst hget
      rw [cellsWarnings]
      exact List.mem_append_left _ (by simpa using hw)
    | succ j' =>
      simp only [List.getElem?_cons_succ] at hget
      rw [cellsWarnings]
      refine List.mem_append_right _ (ih (i0 + 1) j' c w hget ?_)
      have harith : i0 + 1 + j' = i0 + (j' + 1) := by omega
      rw [harith]
      exact hw

theorem cellsErrors_set (keys : List String) :
    ∀ (l : List Cell) (i0 j : ℕ) (c c' : Cell),
      l[j]? = some c →
      (∀ i, (validateCell c' i keys).errors = (validateCell c i keys).errors) →
      cellsErrors keys i0 (l.set j c') = cellsErrors keys i0 l := by
  intro l
  induction l with
  | nil => intro i0 j c c' hget; simp at hget
  | cons c0 rest ih =>
    intro i0 j c c' hget heq
    cases j with
    | zero =>
      simp only [List.getElem?_cons_zero, Option.some.injEq] at hget
      subst hget
      rw [List.set_cons_zero, cellsErrors, cellsErrors, heq i0]
    | succ j' =>
      simp only [List.getElem?_cons_succ] at hget
      rw [List.set_cons_succ, cellsErrors, cellsErrors, ih (i0 + 1) j' c c' hget heq]

theorem filter_map_set {α β : Type} (p : α → Bool) (f : α → β) :
    ∀ (l : List α) (j : ℕ) (c c' : α), l[j]? = some c → p c' = p c → f c' = f c →
      ((l.set j c').filter p).map f = (l.filter p).map f := by
  intro l
  induction l with
  | nil => intro j c c' hget _ _; simp at hget
  | cons c0 rest ih =>
    intro j c c' hget hp hf
    cases j with
    | zero =>
      simp only [List.getElem?_cons_zero, Option.some.injEq] at hget
      subst hget
      rw [List.set_cons_zero, List.filter_cons, List.filter_cons, hp]
      cases hpc : p c0 <;> simp [hpc, hf]
    | succ j' =>
      simp only [List.getElem?_cons_succ] at hget
      rw [List.set_cons_succ, List.filter_cons, List.filter_cons]
      cases hpc : p c0 <;> simp [hpc, ih j' c c' hget hp hf]

theorem keysOf_set (l : List Cell) (j : ℕ) (c c' : Cell)
    (hget : l[j]? = some c) (hid : c'.id = c.id) :
    ((l.set j c').filter (fun x => x.id ≠ "")).map Cell.id =
      (l.filter (fun x => x.id ≠ "")).map Cell.id :=
  filter_map_set _ _ l j c c' hget (by simp [hid]) hid

theorem validateCell_errors_clearSource (c : Cell) (ref : CellRef) (keys : List String)
    (h : c.source = some ref) (i : ℕ) :
    (validateCell { c with source := some { ref with cell := none } } i keys).errors =
      (validateCell c i keys).errors := by
  have hedge : isEdgeCell { c with source := some { ref with cell := none } } = isEdgeCell c := by
    simp [isEdgeCell, h]
  rw [validateCell_errors, validateCell_errors, hedge]
  simp [h]

theorem validateCell_errors_clearTarget (c : Cell) (ref : CellRef) (keys : List String)
    (h : c.target = some ref) (i : ℕ) :
    (validateCell { c with target := some { ref with cell := none } } i keys).errors =
      (validateCell c i keys).errors := by
  have hedge : isEdgeCell { c with target := some { ref with cell := none } } = isEdgeCell c := by
    simp [isEdgeCell, h]
  rw [validateCell_errors, validateCell_errors, hedge]
  simp [h]

/-- C8 (amended): in a cells array in which at least one cell carries an
id, an edge cell whose source (respectively target) reference names a cell
id that no cell in the array has is reported exactly as the `ORPHAN_FLOW`
warning; clearing just that dangling reference changes neither the errors
list nor the `valid` verdict of `validateCells`, so the dangling reference
alone contributes no error and cannot make the result invalid.  (The
at-least-one-id hypothesis is forced by the `cellMap.size > 0` guard: when
no cell has an id the reference check is skipped entirely.) -/
theorem C8_dangling_reference_is_warning_only :
    (∀ (cells : List Cell) (i : ℕ) (c : Cell) (ref : CellRef) (sid : String),
      cells[i]? = some c →
      isEdgeCell c = true →
      c.source = some ref →
      ref.cell = some sid →
      sid ≠ "" →
      (∃ c0 ∈ cells, c0.id ≠ "") →
      (∀ c0 ∈ cells, c0.id ≠ sid) →
      orphanSourceWarning i sid ∈ (validateCells cells).warnings ∧
      (validateCells (cells.set i { c with source := some { ref with cell := none } })).errors
        = (validateCells cells).errors ∧
      (validateCells (cells.set i { c with source := some { ref with cell := none } })).valid
        = (validateCells cells).valid) ∧
    (∀ (cells : List Cell) (i : ℕ) (c : Cell) (ref : CellRef) (tid : String),
      cells[i]? = some c →
      isEdgeCell c = true →
      c.target = some ref →
      ref.cell = some tid →
      tid ≠ "" →
      (∃ c0 ∈ cells, c0.id ≠ "") →
      (∀ c0 ∈ cells, c0.id ≠ tid) →
      orphanTargetWarning i tid ∈ (validateCells cells).warnings ∧
      (validateCells (cells.set i { c with target := some { ref with cell := none } })).errors
        = (validateCells cells).errors ∧
      (validateCells (cells.set i { c with target := some { ref with cell := none } })).valid
        = (validateCells cells).valid) := by
  constructor
  · intro cells i c ref sid hget hedge hsrc hcell hne hexists hnot
    have hcellsne : cells ≠ [] := by
      intro hnil
      subst hnil
      simp at hget
    have hkne : ((cells.filter (fun x => x.id ≠ "")).map Cell.id) ≠ [] := by
      obtain ⟨c0, hc0, hc0id⟩ := hexists
      intro hk
      rw [List.map_eq_nil_iff] at hk
      have : c0 ∈ cells.filter (fun x => x.id ≠ "") :=
        List.mem_filter.mpr ⟨hc0, by simpa using hc0id⟩
      rw [hk] at this
      simp at this
    have hknot : ¬ (((cells.filter (fun x => x.id ≠ "")).map Cell.id).contains sid = true) := by
      intro hcon
      have hmem : sid ∈ (cells.filter (fun x => x.id ≠ "")).map Cell.id := by
        simpa using hcon
      obtain ⟨x, hxf, hxid⟩ := List.mem_map.mp hmem
      exact hnot x (List.mem_filter.mp hxf).1 hxid
    have hsrcor : srcOrphans c i ((cells.filter (fun x => x.id ≠ "")).map Cell.id) =
        [orphanSourceWarning i sid] := by
      simp only [srcOrphans, hsrc, hcell]
      rw [if_pos ⟨hne, hkne, hknot⟩]
    have herr :
        (validateCells (cells.set i { c with source := some { ref with cell := none } })).errors
          = (validateCells cells).errors := by
      have hne' : cells.set i { c with source := some { ref with cell := none } } ≠ [] := by
        intro hnil
        have := congrArg List.length hnil
        rw [List.length_set] at this
        exact hcellsne (List.length_eq_zero.mp this)
      rw [validateCells_errors_of_ne_nil _ hne', validateCells_errors_of_ne_nil cells hcellsne,
        keysOf_set cells i c { c with source := some { ref with cell := none } } hget rfl]
      exact cellsErrors_set _ cells 0 i c _ hget
        (validateCell_errors_clearSource c ref _ hsrc)
    refine ⟨?_, herr, ?_⟩
    · rw [validateCells_warnings_of_ne_nil cells hcellsne]
      refine mem_cellsWarnings _ cells 0 i c _ ?_ ?_
      · exact hget
      · rw [Nat.zero_add, validateCell_warnings]
        have hmem1 : orphanSourceWarning i sid ∈
            srcOrphans c i ((cells.filter (fun x => x.id ≠ "")).map Cell.id) := by
          rw [hsrcor]
          exact List.mem_singleton_self _
        have hmem2 : orphanSourceWarning i sid ∈
            (if isEdgeCell c then
              srcOrphans c i ((cells.filter (fun x => x.id ≠ "")).map Cell.id) ++
                tgtOrphans c i ((cells.filter (fun x => x.id ≠ "")).map Cell.id)
            else []) := by
          simp only [hedge, if_true]
          exact List.mem_append_left _ hmem1
        exact List.mem_append_right _ hmem2
    · rw [validateCells_valid_eq_isEmpty, validateCells_valid_eq_isEmpty, herr]
  · intro cells i c ref tid hget hedge htgt hcell hne hexists hnot
    have hcellsne : cells ≠ [] := by
      intro hnil
      subst hnil
      simp at hget
    have hkne : ((cells.filter (fun x => x.id ≠ "")).map Cell.id) ≠ [] := by
      obtain ⟨c0, hc0, hc0id⟩ := hexists
      intro hk
      rw [List.map_eq_nil_iff] at hk
      have : c0 ∈ cells.filter (fun x => x.id ≠ "") :=
        List.mem_filter.mpr ⟨hc0, by simpa using hc0id⟩
      rw [hk] at this
      simp at this
    have hknot : ¬ (((cells.filter (fun x => x.id ≠ "")).map Cell.id).contains tid = true) := by
      intro hcon
      have hmem : tid ∈ (cells.filter (fun x => x.id ≠ "")).map Cell.id := by
        simpa using hcon
      obtain ⟨x, hxf, hxid⟩ := List.mem_map.mp hmem
      exact hnot x (List.mem_filter.mp hxf).1 hxid
    have htgtor : tgtOrphans c i ((cells.filter (fun x => x.id ≠ "")).map Cell.id) =
        [orphanTargetWarning i tid] := by
      simp only [tgtOrphans, htgt, hcell]
      rw [if_pos ⟨hne, hkne, hknot⟩]
    have herr :
        (validateCells (cells.set i { c with target := some { ref with cell := none } })).errors
          = (validateCells cells).errors := by
      have hne' : cells.set i { c with target := some { ref with cell := none } } ≠ [] := by
        intro hnil
        have := congrArg List.length hnil
        rw [List.length_set] at this
        exact hcellsne (List.length_eq_zero.mp this)
      rw [validateCells_errors_of_ne_nil _ hne', validateCells_errors_of_ne_nil cells hcellsne,
        keysOf_set cells i c { c with target := some { ref with cell := none } } hget rfl]
      exact cellsErrors_set _ cells 0 i c _ hget
        (validateCell_errors_clearTarget c ref _ htgt)
    refine ⟨?_, herr, ?_⟩
    · rw [validateCells_warnings_of_ne_nil cells hcellsne]
      refine mem_cellsWarnings _ cells 0 i c _ ?_ ?_
      · exact hget
      · rw [Nat.zero_add, validateCell_warnings]
        have hmem1 : orphanTargetWarning i tid ∈
            tgtOrphans c i ((cells.filter (fun x => x.id ≠ "")).map Cell.id) := by
          rw [htgtor]
          exact List.mem_singleton_self _
        have hmem2 : orphanTargetWarning i tid ∈
            (if isEdgeCell c then
              srcOrphans c i ((cells.filter (fun x => x.id ≠ "")).map Cell.id) ++
                tgtOrphans c i ((cells.filter (fun x => x.id ≠ "")).map Cell.id)
            else []) := by
          simp only [hedge, if_true]
          exact List.mem_append_right _ hmem1
        exact List.mem_append_right _ hmem2
    · rw [validateCells_valid_eq_isEmpty, validateCells_valid_eq_isEmpty, herr]

/-- An edge cell with no id whose source reference dangles. -/
def C8noIdEdge : Cell :=
  { shape := "flow", zIndex := some 10,
    source := some { cell := some "ghost" }, target := some { cell := some "n1" } }

/-- C8 counterexample to the claim as stated: in a cells array in which no
cell carries an id (`cellMap.size = 0`), an edge cell whose source
reference names the nonexistent id `ghost` produces no orphan warning at
all — the reference check is skipped — so the dangling reference is not
"reported as a warning". -/
theorem C8_counterexample :
    (([C8noIdEdge] : List Cell)[0]? = some C8noIdEdge ∧
      isEdgeCell C8noIdEdge = true ∧
      C8noIdEdge.source = some { id := none, cell := some "ghost" } ∧
      (∀ c0 ∈ ([C8noIdEdge] : List Cell), c0.id ≠ "ghost")) ∧
    ∀ w ∈ (validateCells [C8noIdEdge]).warnings, w.code ≠ "ORPHAN_FLOW" := by
  decide

/-- A well-formed node cell used by the C8 witness. -/
def C8node : Cell :=
  { id := "n1", shape := "process", zIndex := some 1,
    position := some ⟨0, 0⟩, size := some ⟨160, 80⟩, data := true }

/-- An edge cell with an id whose source reference dangles. -/
def C8edge : Cell :=
  { id := "e1", shape := "flow", zIndex := some 10,
    source := some { cell := some "ghost" }, target := some { cell := some "n1" } }

/-- Concrete witness for the amended C8: with an id-carrying cell present,
the dangling source reference of the edge cell yields the orphan warning. -/
theorem C8_dangling_reference_witness :
    orphanSourceWarning 1 "ghost" ∈ (validateCells [C8node, C8edge]).warnings :=
  (C8_dangling_reference_is_warning_only.1 [C8node, C8edge] 1 C8edge
    ⟨none, some "ghost"⟩ "ghost" rfl rfl rfl rfl (by decide) (by decide)
    (by decide)).1

/-! ## Converter (`t2tConverter.js`)

The embedded output structures carry exactly the fields the converter
emits; `attrs` objects are flattened into the fields the source writes. -/

/-- `attrs` of a node cell: label text and body stroke styling. -/
structure NodeCellAttrs where
  textText : String
  bodyStroke : String
  bodyStrokeWidth : ℚ
  bodyStrokeDasharray : Option String
  deriving Repr, DecidableEq

/-- The optional `data.metadata` block of a node cell. -/
structure NodeCellMeta where
  ipAddress : Option String
  services : List String
  confidence : ℚ
  source : String
  extractedFrom : Option String
  role : Option String
  rawServices : Option String
  deriving Repr, DecidableEq

/-- `data` of a node cell. -/
structure TDNodeData where
  type : String
  name : String
  description : String
  outOfScope : Bool
  reasonOutOfScope : String
  hasOpenThreats : Bool
  isBidirectional : Bool
  isEncrypted : Bool
  isPublicNetwork : Bool
  protocol : String
  threats : List String
  metadata : Option NodeCellMeta
  deriving Repr, DecidableEq

/-- A converted node cell (t2tConverter.js lines 108–159). -/
structure TDNodeCell where
  position : CellPos
  size : CellSize
  attrs : NodeCellAttrs
  visible : Bool
  shape : String
  zIndex : ℚ
  id : String
  data : TDNodeData
  deriving Repr, DecidableEq

/-- `attrs.line` of a flow cell. -/
structure FlowLineAttrs where
  stroke : String
  strokeWidth : ℚ
  targetMarkerName : String
  strokeDasharray : Option String
  deriving Repr, DecidableEq

/-- One label of a flow cell. -/
structure FlowLabel where
  position : ℚ
  textText : String
  fontWeight : String
  fontSize : String
  deriving Repr, DecidableEq

/-- The optional `data.metadata` block of a flow cell. -/
structure FlowCellMeta where
  confidence : ℚ
  source : String
  extractedFrom : Option String
  sourceNode : Option String
  targetNode : Option String
  deriving Repr, DecidableEq

/-- `data` of a flow cell. -/
structure TDFlowData where
  type : String
  name : String
  description : String
  outOfScope : Bool
  reasonOutOfScope : String
  hasOpenThreats : Bool
  isBidirectional : Bool
  isEncrypted : Bool
  isPublicNetwork : Bool
  protocol : String
  threats : List String
  metadata : Option FlowCellMeta
  deriving Repr, DecidableEq

/-- A converted flow cell (t2tConverter.js lines 168–237); `sourceRefId`
and `targetRefId` are `source.id` / `target.id`. -/
structure TDFlowCell where
  shape : String
  line : FlowLineAttrs
  width : ℚ
  height : ℚ
  zIndex : ℚ
  connector : String
  data : TDFlowData
  id : String
  labels : List FlowLabel
  sourceRefId : String
  targetRefId : String
  deriving Repr, DecidableEq

/-- A converted cell. -/
inductive TDCell where
  | node (c : TDNodeCell)
  | flow (c : TDFlowCell)
  deriving Repr, DecidableEq

/-- A converted diagram (t2tConverter.js lines 72–80). -/
structure TDDiagram where
  id : ℚ
  title : String
  diagramType : String
  placeholder : String
  thumbnail : String
  version : String
  cells : List TDCell
  deriving Repr, DecidableEq

/-- `summary` of the emitted threat model. -/
structure TDSummary where
  title : String
  owner : String
  description : String
  id : ℚ
  deriving Repr, DecidableEq

/-- `detail` of the emitted threat model. -/
structure TDDetail where
  contributors : List String
  diagrams : List TDDiagram
  diagramTop : ℚ
  reviewer : String
  threatTop : ℚ
  deriving Repr, DecidableEq

/-- The emitted threat model (t2tConverter.js lines 248–267). -/
structure ThreatModel where
  version : String
  summary : TDSummary
  detail : TDDetail
  deriving Repr, DecidableEq

/-- `convert`'s options object with its defaults
(t2tConverter.js lines 27–33). -/
structure ConvertOptions where
  diagramName : String := "Imported Topology"
  diagramDescription : String := "Auto-generated from OTP document"
  projectName : String := "T2T Import"
  projectOwner : String := "Unknown"
  includeMetadata : Bool := true
  deriving Repr, DecidableEq

/-- Insertion-ordered deduplication, the semantics of
`[...new Set(list)]`. -/
def dedupFirstGo (seen : List String) : List String → List String
  | [] => []
  | a :: rest =>
    if a ∈ seen then dedupFirstGo seen rest
    else a :: dedupFirstGo (a :: seen) rest

/-- `[...new Set(list)]`. -/
def dedupFirst (l : List String) : List String := dedupFirstGo [] l

/-- `DFDIR.getStatistics` (dfdir.js lines 344–376). -/
structure DfdirStats where
  totalElements : ℕ
  totalFlows : ℕ
  actors : ℕ
  processes : ℕ
  stores : ℕ
  elementsBySourceText : ℕ
  elementsBySourceVision : ℕ
  elementsBySourceManual : ℕ
  averageConfidenceElements : ℚ
  averageConfidenceFlows : ℚ
  extractionSources : List String
  lowConfidenceElements : ℕ
  lowConfidenceFlows : ℕ
  missingIPs : ℕ
  deriving Repr, DecidableEq

/-- `DFDIR.getStatistics` (dfdir.js lines 344–376); `elementsByType`
duplicates the actor/process/store counts and is not repeated here. -/
def DFDIR.getStatistics (d : DFDIR) : DfdirStats :=
  { totalElements := d.elements.length,
    totalFlows := d.flows.length,
    actors := (d.elements.filter (fun el => el.type = "actor")).length,
    processes := (d.elements.filter (fun el => el.type = "process")).length,
    stores := (d.elements.filter (fun el => el.type = "store")).length,
    elementsBySourceText := (d.elements.filter (fun el => el.source = "text")).length,
    elementsBySourceVision := (d.elements.filter (fun el => el.source = "vision")).length,
    elementsBySourceManual := (d.elements.filter (fun el => el.source = "manual")).length,
    averageConfidenceElements :=
      if d.elements.length > 0 then
        ((jsRound ((d.elements.map DFDElement.confidence).sum / d.elements.length) : ℤ) : ℚ)
      else 0,
    averageConfidenceFlows :=
      if d.flows.length > 0 then
        ((jsRound ((d.flows.map DFDFlow.confidence).sum / d.flows.length) : ℤ) : ℚ)
      else 0,
    extractionSources := dedupFirst (d.elements.map DFDElement.source),
    lowConfidenceElements := (d.elements.filter (fun el => el.confidence < 70)).length,
    lowConfidenceFlows := (d.flows.filter (fun f => f.confidence < 70)).length,
    missingIPs := (d.elements.filter (fun el => jsStrFalsy el.ipAddress)).length }

/-- `getStrokeColor` (t2tConverter.js lines 351–364). -/
def T2TConverter.getStrokeColor (el : DFDElement) : String :=
  if el.confidence ≥ 85 then "#333333"
  else if el.confidence ≥ 70 then "#FFA726"
  else "#E53935"

/-- `buildDescription` (t2tConverter.js lines 274–294). -/
def T2TConverter.buildDescription (el : DFDElement) : String :=
  let parts :=
    (if ¬ jsStrFalsy el.ipAddress then ["IP: " ++ el.ipAddress.getD ""] else []) ++
    (if el.services.length > 0 then
      ["Services: " ++ String.intercalate ", " el.services] else []) ++
    (if ¬ jsStrFalsy el.metadata.role then ["Role: " ++ el.metadata.role.getD ""] else [])
  let parts := if parts = [] then
      [if el.type = "actor" then "External entity"
        else if el.type = "store" then "Data store"
        else "System component"]
    else parts
  String.intercalate " | " parts

/-- `buildFlowDescription` (t2tConverter.js lines 301–321). -/
def T2TConverter.buildFlowDescription (f : DFDFlow) : String :=
  let parts :=
    (if f.protocol ≠ "" then ["Protocol: " ++ f.protocol] else []) ++
    (if f.isEncrypted then ["Encrypted"] else []) ++
    (if f.isPublicNetwork then ["Public Network"] else [])
  if parts = [] then "Data flow between components"
  else String.intercalate " | " parts

/-- `convertElementToCell` (t2tConverter.js lines 89–160). -/
def T2TConverter.convertElementToCell (el : DFDElement) (includeMetadata : Bool) : TDNodeCell :=
  let tdType := if el.type = "actor" then "tm.Actor"
    else if el.type = "process" then "tm.Process"
    else if el.type = "store" then "tm.Store"
    else "tm.Process"
  let shapeName := if el.type = "actor" then "actor"
    else if el.type = "process" then "process"
    else if el.type = "store" then "store"
    else "process"
  { position := ⟨el.x, el.y⟩,
    size := ⟨160, 80⟩,
    attrs := ⟨el.name, T2TConverter.getStrokeColor el, 2, none⟩,
    visible := true,
    shape := shapeName,
    zIndex := 1,
    id := el.id,
    data :=
      { type := tdType,
        name := el.name,
        description := T2TConverter.buildDescription el,
        outOfScope := false,
        reasonOutOfScope := "",
        hasOpenThreats := false,
        isBidirectional := false,
        isEncrypted := false,
        isPublicNetwork := false,
        protocol := "",
        threats := [],
        metadata := if includeMetadata then
            some ⟨el.ipAddress, el.services, el.confidence, el.source,
              el.metadata.extractedFrom, el.metadata.role, el.metadata.rawServices⟩
          else none } }

/-- `convertFlowToCell` (t2tConverter.js lines 168–238). -/
def T2TConverter.convertFlowToCell (f : DFDFlow) (includeMetadata : Bool) : TDFlowCell :=
  { shape := "flow",
    line := ⟨if f.isEncrypted then "#2E7D32" else "#333333", 3/2, "block",
      if f.isPublicNetwork then some "5 5" else none⟩,
    width := 200,
    height := 100,
    zIndex := 10,
    connector := "smooth",
    data :=
      { type := "tm.Flow",
        name := if f.protocol = "" then "Data Flow" else f.protocol,
        description := T2TConverter.buildFlowDescription f,
        outOfScope := false,
        reasonOutOfScope := "",
        hasOpenThreats := false,
        isBidirectional := false,
        isEncrypted := f.isEncrypted,
        isPublicNetwork := f.isPublicNetwork,
        protocol := f.protocol,
        threats := [],
        metadata := if includeMetadata then
            some ⟨f.confidence, f.source, f.metadata.extractedFrom,
              f.metadata.sourceNode, f.metadata.targetNode⟩
          else none },
    id := f.id,
    labels := [⟨1/2, f.protocol, "400", "small"⟩],
    sourceRefId := f.sourceId,
    targetRefId := f.targetId }

/-- `buildDiagram` (t2tConverter.js lines 57–81): node cells in element
order followed by flow cells in flow order. -/
def T2TConverter.buildDiagram (d : DFDIR) (name description : String)
    (includeMetadata : Bool) : TDDiagram :=
  { id := 0,
    title := name,
    diagramType := "STRIDE",
    placeholder := description,
    thumbnail := "./public/content/images/thumbnail.stride.jpg",
    version := "2.5.0",
    cells := d.elements.map (fun el => TDCell.node (T2TConverter.convertElementToCell el includeMetadata)) ++
      d.flows.map (fun f => TDCell.flow (T2TConverter.convertFlowToCell f includeMetadata)) }

/-- `buildProjectDescription` (t2tConverter.js lines 329–344). -/
def T2TConverter.buildProjectDescription (_d : DFDIR) (stats : DfdirStats) : String :=
  String.intercalate "\n"
    ["Auto-generated threat model from OTP document using T2T import.",
      "",
      "Extraction Statistics:",
      "- Elements: " ++ toString stats.totalElements ++ " (" ++ toString stats.actors ++
        " actors, " ++ toString stats.processes ++ " processes, " ++
        toString stats.stores ++ " stores)",
      "- Flows: " ++ toString stats.totalFlows,
      "- Average Confidence: " ++ toString stats.averageConfidenceElements ++ "%",
      "- Extraction Sources: " ++ String.intercalate ", " stats.extractionSources,
      "",
      "Please review and validate all extracted entities before conducting threat analysis."]

/-- `buildThreatModel` (t2tConverter.js lines 248–267). -/
def T2TConverter.buildThreatModel (diagram : TDDiagram) (projectName projectOwner : String)
    (d : DFDIR) : ThreatModel :=
  { version := "2.5.0",
    summary :=
      { title := projectName,
        owner := projectOwner,
        description := T2TConverter.buildProjectDescription d d.getStatistics,
        id := 0 },
    detail :=
      { contributors := [],
        diagrams := [diagram],
        diagramTop := 0,
        reviewer := "",
        threatTop := 0 } }

/-- `validationService.validateDFDIR` (validationService.js
lines 181–203): the DFDIR is non-null with a `validate` method by typing;
on failure the string errors are merged in unified form. -/
def validateDFDIRService (d : DFDIR) : VResult :=
  if ¬ d.validate.valid then
    (createResult "validationService.dfdir").merge (fromStringErrors d.validate.errors "dfdir")
  else createResult "validationService.dfdir"

/-- `T2TConverter.convert` (t2tConverter.js lines 26–47): validates the
DFDIR through the unified validation service and throws an aggregated
error when invalid, otherwise builds the threat model. -/
def T2TConverter.convert (d : DFDIR) (opts : ConvertOptions) : Except String ThreatModel :=
  if ¬ (validateDFDIRService d).valid then
    Except.error ("DFDIR validation failed: " ++
      String.intercalate ", " ((validateDFDIRService d).errors.map VError.message))
  else
    Except.ok (T2TConverter.buildThreatModel
      (T2TConverter.buildDiagram d opts.diagramName opts.diagramDescription opts.includeMetadata)
      opts.projectName opts.projectOwner d)

/-! ### Claim C2: convert throws an aggregated error on invalid DFDIRs -/

theorem foldl_addError_errors (mk : String → VError) :
    ∀ (l : List String) (r : VResult),
      (l.foldl (fun acc msg => acc.addError (mk msg)) r).errors = r.errors ++ l.map mk := by
  intro l
  induction l with
  | nil => intro r; simp
  | cons msg rest ih =>
    intro r
    rw [List.foldl_cons, ih]
    simp [VResult.addError]

theorem fromStringErrors_errors (l : List String) (srcName : String) :
    (fromStringErrors l srcName).errors = l.map unknownError := by
  unfold fromStringErrors
  rw [foldl_addError_errors]
  rfl

theorem dfdir_validate_valid_eq (d : DFDIR) :
    d.validate.valid = d.validate.errors.isEmpty := rfl

/-- The flow of Scenario E, whose `sourceId` matches no element id. -/
def ghostFlow : DFDFlow :=
  { id := "f1", sourceId := "ghost", targetId := "e1", protocol := "HTTPS",
    isEncrypted := true, isPublicNetwork := false, metadata := {},
    confidence := 80, source := "text" }

/-- The DFDIR of Scenario E: one valid element and one flow whose
`sourceId` (`ghost`) matches no element id. -/
def scenarioE : DFDIR :=
  { name := "demo", elements := [demoElement], flows := [ghostFlow], metadata := {} }

/-- C2: whenever `DFDIR.validate` reports invalid, `convert` throws, and
the thrown message aggregates all validation messages (comma-joined after
the fixed prefix); in particular Scenario E — one flow whose `sourceId`
matches no element id — throws, and the message contains the flow's index
(`Flow 0`) and the missing id (`ghost`). -/
theorem C2_convert_throws_aggregated :
    (∀ (d : DFDIR) (opts : ConvertOptions), d.validate.valid = false →
      T2TConverter.convert d opts = Except.error
        ("DFDIR validation failed: " ++ String.intercalate ", " d.validate.errors)) ∧
    (T2TConverter.convert scenarioE {} = Except.error
        "DFDIR validation failed: Flow 0: Source element ghost not found" ∧
      List.IsInfix "Flow 0".data
        "DFDIR validation failed: Flow 0: Source element ghost not found".data ∧
      List.IsInfix "ghost".data
        "DFDIR validation failed: Flow 0: Source element ghost not found".data) := by
  have huniv : ∀ (d : DFDIR) (opts : ConvertOptions), d.validate.valid = false →
      T2TConverter.convert d opts = Except.error
        ("DFDIR validation failed: " ++ String.intercalate ", " d.validate.errors) := by
    intro d opts h
    have herrne : d.validate.errors ≠ [] := by
      intro hnil
      rw [dfdir_validate_valid_eq, hnil] at h
      simp at h
    have hsvc : validateDFDIRService d =
        (createResult "validationService.dfdir").merge
          (fromStringErrors d.validate.errors "dfdir") := by
      unfold validateDFDIRService
      rw [if_pos (show ¬ (d.validate.valid = true) by rw [h]; simp)]
    have herrsvc : (validateDFDIRService d).errors.map VError.message = d.validate.errors := by
      rw [hsvc]
      unfold VResult.merge createResult
      rw [fromStringErrors_errors]
      simp only [List.nil_append, List.map_map]
      have : VError.message ∘ unknownError = id := by
        funext msg
        rfl
      rw [this, List.map_id]
    have hvalid : (validateDFDIRService d).valid = false := by
      rw [hsvc]
      unfold VResult.merge createResult
      rw [fromStringErrors_errors]
      simp [herrne]
    unfold T2TConverter.convert
    rw [if_pos (show ¬ ((validateDFDIRService d).valid = true) by rw [hvalid]; simp),
      herrsvc]
  refine ⟨huniv, ?_, by decide, by decide⟩
  have h := huniv scenarioE {} (by decide)
  rw [h]
  have hmsg : String.intercalate ", " scenarioE.validate.errors =
      "Flow 0: Source element ghost not found" := by decide
  rw [hmsg]
  rfl

/-- Concrete witness for C2 at the Scenario E input. -/
theorem C2_convert_throws_aggregated_witness :
    T2TConverter.convert scenarioE {} = Except.error
      ("DFDIR validation failed: " ++ String.intercalate ", " scenarioE.validate.errors) :=
  C2_convert_throws_aggregated.1 scenarioE {} (by decide)

/-! ## Layout engine (`t2tLayout.js`)

The layout engine reads a node's `id`, `type`, `x`, `y` and a connection's
`sourceId`/`targetId`.  `Math.cos`, `Math.sin` and `Math.PI` are the
platform's floating-point approximations; they are abstracted as
parameters `jcos`, `jsin`, `piA` (every theorem below holds for all of
them).  The canvas is the constructor's fixed 2000 × 1500; `gridSnap` is
the configured grid. -/

/-- A node as the layout engine sees it. -/
structure LNode where
  id : String
  type : String
  x : ℚ
  y : ℚ
  deriving Repr, DecidableEq

/-- A connection as the layout engine sees it. -/
structure LConn where
  sourceId : String
  targetId : String
  deriving Repr, DecidableEq

/-- `snapToGrid` (t2tLayout.js lines 225–227):
`Math.round(value / gridSnap) * gridSnap`. -/
def T2TLayout.snapToGrid (g v : ℚ) : ℚ := ((jsRound (v / g) : ℤ) : ℚ) * g

/-- "x is an exact multiple of g". -/
def isSnapped (g v : ℚ) : Prop := ∃ k : ℤ, v = (k : ℚ) * g

theorem snapToGrid_isSnapped (g v : ℚ) : isSnapped g (T2TLayout.snapToGrid g v) :=
  ⟨jsRound (v / g), rfl⟩

/-- In-place coordinate assignment to the node at index `i` (the JS code
mutates the node object held in the array). -/
def setNodePos (ns : List LNode) (i : ℕ) (x y : ℚ) : List LNode :=
  match ns[i]? with
  | none => ns
  | some n => ns.set i { n with x := x, y := y }

/-- The tier assignment of `calculateTieredLayout` (t2tLayout.js
lines 55–62): a node of unknown type defaults into the process tier. -/
def T2TLayout.tierOf (t : String) : String :=
  if t = "actor" then "actor"
  else if t = "process" then "process"
  else if t = "store" then "store"
  else "process"

/-- `positionTier` (t2tLayout.js lines 89–104), over the indices of the
tier's nodes: early return on an empty tier; otherwise the k-th tier node
is placed at `snap(max(startX, centerOffset) + k·spacing)`, `snap(y)`. -/
def T2TLayout.positionTier (g startX y spacing : ℚ) (tier : List ℕ)
    (ns : List LNode) : List LNode :=
  if tier.length = 0 then ns
  else
    let totalWidth := ((tier.length : ℚ) - 1) * spacing
    let centerOffset := ((2000 : ℚ) - totalWidth) / 2
    let startX' := max startX centerOffset
    tier.enum.foldl
      (fun acc p => setNodePos acc p.2
        (T2TLayout.snapToGrid g (startX' + (p.1 : ℚ) * spacing))
        (T2TLayout.snapToGrid g y))
      ns

/-- `calculateTieredLayout` (t2tLayout.js lines 47–80): actors at
`y = 100`, processes at `y = 500`, stores at `y = 900`, each tier spaced
by 300 starting from `startX = 100`. -/
def T2TLayout.calculateTieredLayout (g : ℚ) (ns : List LNode) : List LNode :=
  let actorIdx := ((ns.enum.filter (fun p => T2TLayout.tierOf p.2.type = "actor")).map Prod.fst)
  let processIdx := ((ns.enum.filter (fun p => T2TLayout.tierOf p.2.type = "process")).map Prod.fst)
  let storeIdx := ((ns.enum.filter (fun p => T2TLayout.tierOf p.2.type = "store")).map Prod.fst)
  let ns1 := T2TLayout.positionTier g 100 100 300 actorIdx ns
  let ns2 := T2TLayout.positionTier g 100 500 300 processIdx ns1
  T2TLayout.positionTier g 100 900 300 storeIdx ns2

/-- `calculateRadialLayout` (t2tLayout.js lines 113–130): all nodes on a
circle of radius `min(1000, 750) − 200` about the canvas centre. -/
def T2TLayout.calculateRadialLayout (g : ℚ) (jcos jsin : ℚ → ℚ) (piA : ℚ)
    (ns : List LNode) : List LNode :=
  if ns.length = 0 then ns
  else
    let centerX := (2000 : ℚ) / 2
    let centerY := (1500 : ℚ) / 2
    let radius := min centerX centerY - 200
    ns.enum.map (fun p =>
      let angle := 2 * piA * (p.1 : ℚ) / (ns.length : ℚ)
      { p.2 with
          x := T2TLayout.snapToGrid g (centerX + radius * jcos angle),
          y := T2TLayout.snapToGrid g (centerY + radius * jsin angle) })

/-- The id stored at an index (total; indices produced by the layout code
are always in range). -/
def idAt (ns : List LNode) (i : ℕ) : String := ((ns[i]?).map LNode.id).getD ""

/-- `new Map(nodes.map(n => [n.id, n]))`: the last node with a given id
wins; returns its index. -/
def lastIndexOfId (ns : List LNode) (id : String) : Option ℕ :=
  ((ns.enum.filter (fun p => p.2.id = id)).map Prod.fst).getLast?

/-- The per-iteration unvisited filter of `buildHierarchyLevels`
(t2tLayout.js line 187). -/
def levelFilter (ns : List LNode) (visited : List String) (current : List ℕ) : List ℕ :=
  current.filter (fun i => ¬ visited.contains (idAt ns i))

/-- The next BFS level (t2tLayout.js lines 194–203): the not-yet-visited
`nodeMap` targets of the current level's outgoing connections. -/
def nextLevelOf (ns : List LNode) (conns : List LConn) (visited : List String)
    (current : List ℕ) : List ℕ :=
  current.flatMap (fun i =>
    (conns.filter (fun c => c.sourceId = idAt ns i)).filterMap (fun c =>
      match lastIndexOfId ns c.targetId with
      | some j => if ¬ visited.contains (idAt ns j) then some j else none
      | none => none))

/-- The `while` loop of `buildHierarchyLevels` (t2tLayout.js
lines 185–209) with explicit fuel.  One iteration: filter the unvisited
part of the current level; if non-empty push it as a level and mark its
ids visited; collect the next level as the unvisited `nodeMap` targets of
the current level's outgoing connections; stop when more than 20 levels
have accumulated.  The loop makes progress in every pair of consecutive
iterations and pushes at most 21 levels, so 64 fuel strictly exceeds the
iterations the JS loop can make and the fuel case is never the one that
stops it. -/
def T2TLayout.buildLevelsGo (ns : List LNode) (conns : List LConn) :
    ℕ → List (List ℕ) → List String → List ℕ → List (List ℕ) × List String
  | 0, levels, visited, _ => (levels, visited)
  | fuel + 1, levels, visited, currentLevel =>
    if currentLevel.length = 0 then (levels, visited)
    else if (levelFilter ns visited currentLevel).length > 0 then
      (if (levels ++ [levelFilter ns visited currentLevel]).length > 20 then
        (levels ++ [levelFilter ns visited currentLevel],
          visited ++ (levelFilter ns visited currentLevel).map (idAt ns))
      else
        T2TLayout.buildLevelsGo ns conns fuel
          (levels ++ [levelFilter ns visited currentLevel])
          (visited ++ (levelFilter ns visited currentLevel).map (idAt ns))
          (nextLevelOf ns conns
            (visited ++ (levelFilter ns visited currentLevel).map (idAt ns))
            currentLevel))
    else
      (if levels.length > 20 then (levels, visited)
      else T2TLayout.buildLevelsGo ns conns fuel levels visited
        (nextLevelOf ns conns visited currentLevel))

/-- `buildHierarchyLevels` (t2tLayout.js lines 178–218): BFS levels from
the roots, then any unvisited nodes appended as a final level. -/
def T2TLayout.buildHierarchyLevels (ns : List LNode) (conns : List LConn)
    (roots : List ℕ) : List (List ℕ) :=
  if ((ns.enum.filter (fun p =>
      ¬ (T2TLayout.buildLevelsGo ns conns 64 [] [] roots).2.contains p.2.id)).map
        Prod.fst).length > 0 then
    (T2TLayout.buildLevelsGo ns conns 64 [] [] roots).1 ++
      [(ns.enum.filter (fun p =>
        ¬ (T2TLayout.buildLevelsGo ns conns 64 [] [] roots).2.contains p.2.id)).map
          Prod.fst]
  else (T2TLayout.buildLevelsGo ns conns 64 [] [] roots).1

/-- `calculateHierarchicalLayout` (t2tLayout.js lines 140–169): roots are
the nodes with no incoming connection; with no roots it falls back to the
tiered layout, otherwise each BFS level is positioned as a tier at
`y = 100 + 400·level`. -/
def T2TLayout.calculateHierarchicalLayout (g : ℚ) (ns : List LNode)
    (conns : List LConn) : List LNode :=
  if ((ns.enum.filter (fun p =>
      ¬ (conns.map LConn.targetId).contains p.2.id)).map Prod.fst).length = 0 then
    T2TLayout.calculateTieredLayout g ns
  else
    (T2TLayout.buildHierarchyLevels ns conns
      ((ns.enum.filter (fun p =>
        ¬ (conns.map LConn.targetId).contains p.2.id)).map Prod.fst)).enum.foldl
      (fun acc p => T2TLayout.positionTier g 100 (100 + 400 * (p.1 : ℚ)) 300 p.2 acc)
      ns

/-- `calculateLayout` (t2tLayout.js lines 25–36): dispatch on the
algorithm name; an unknown name is a hard error. -/
def T2TLayout.calculateLayout (g : ℚ) (jcos jsin : ℚ → ℚ) (piA : ℚ)
    (ns : List LNode) (conns : List LConn) (layoutType : String) :
    Except String (List LNode) :=
  if layoutType = "tiered" then Except.ok (T2TLayout.calculateTieredLayout g ns)
  else if layoutType = "radial" then
    Except.ok (T2TLayout.calculateRadialLayout g jcos jsin piA ns)
  else if layoutType = "hierarchical" then
    Except.ok (T2TLayout.calculateHierarchicalLayout g ns conns)
  else Except.error ("Unknown layout type: " ++ layoutType)

/-! ### Claim C6: all emitted coordinates are grid multiples -/

theorem mem_enumFrom_of_getElem? {α : Type} (l : List α) :
    ∀ (k j : ℕ) (a : α), l[j]? = some a → (k + j, a) ∈ List.enumFrom k l := by
  induction l with
  | nil => intro k j a h; simp at h
  | cons b rest ih =>
    intro k j a h
    cases j with
    | zero =>
      simp only [List.getElem?_cons_zero, Option.some.injEq] at h
      subst h
      simp [List.enumFrom]
    | succ j' =>
      simp only [List.getElem?_cons_succ] at h
      have hmem := ih (k + 1) j' a h
      have harith : k + (j' + 1) = k + 1 + j' := by omega
      rw [harith, List.enumFrom]
      exact List.mem_cons_of_mem _ hmem

theorem mem_enum_of_getElem? {α : Type} (l : List α) (j : ℕ) (a : α)
    (h : l[j]? = some a) : (j, a) ∈ l.enum := by
  have := mem_enumFrom_of_getElem? l 0 j a h
  simpa [List.enum] using this

theorem getElem?_of_mem_enumFrom {α : Type} (l : List α) :
    ∀ (k : ℕ) (p : ℕ × α), p ∈ List.enumFrom k l →
      k ≤ p.1 ∧ l[p.1 - k]? = some p.2 := by
  induction l with
  | nil => intro k p h; simp [List.enumFrom] at h
  | cons b rest ih =>
    intro k p h
    rw [List.enumFrom] at h
    rcases List.mem_cons.mp h with h | h
    · subst h
      simp
    · obtain ⟨hk, hget⟩ := ih (k + 1) p h
      refine ⟨by omega, ?_⟩
      have harith : p.1 - k = (p.1 - (k + 1)) + 1 := by omega
      rw [harith, List.getElem?_cons_succ]
      exact hget

theorem getElem?_of_mem_enum {α : Type} (l : List α) (p : ℕ × α)
    (h : p ∈ l.enum) : l[p.1]? = some p.2 := by
  have := (getElem?_of_mem_enumFrom l 0 p (by simpa [List.enum] using h)).2
  simpa using this

theorem enumFrom_map_snd {α : Type} (l : List α) :
    ∀ k, (List.enumFrom k l).map Prod.snd = l := by
  induction l with
  | nil => intro k; simp [List.enumFrom]
  | cons b rest ih =>
    intro k
    rw [List.enumFrom, List.map_cons, ih (k + 1)]

theorem enum_map_snd {α : Type} (l : List α) : l.enum.map Prod.snd = l :=
  enumFrom_map_snd l 0

/-- "Whatever node sits at index `j` has snapped coordinates." -/
def SnappedAt (g : ℚ) (ns : List LNode) (j : ℕ) : Prop :=
  ∀ n, ns[j]? = some n → isSnapped g n.x ∧ isSnapped g n.y

theorem setNodePos_length (ns : List LNode) (i : ℕ) (x y : ℚ) :
    (setNodePos ns i x y).length = ns.length := by
  unfold setNodePos
  cases h : ns[i]? <;> simp

theorem setNodePos_snappedAt (g : ℚ) (ns : List LNode) (i : ℕ) (x y : ℚ)
    (hx : isSnapped g x) (hy : isSnapped g y) (j : ℕ)
    (h : SnappedAt g ns j ∨ j = i) : SnappedAt g (setNodePos ns i x y) j := by
  intro n hn
  unfold setNodePos at hn
  cases hi : ns[i]? with
  | none =>
    rw [hi] at hn
    rcases h with h | h
    · exact h n hn
    · subst h
      rw [hn] at hi
      simp at hi
  | some m =>
    rw [hi] at hn
    by_cases hj : j = i
    · subst hj
      have hlt : j < ns.length := by
        by_contra hge
        rw [List.getElem?_eq_none (by omega)] at hi
        simp at hi
      rw [List.getElem?_set_self hlt] at hn
      simp only [Option.some.injEq] at hn
      subst hn
      exact ⟨hx, hy⟩
    · rcases h with h | h
      · rw [List.getElem?_set_ne (fun he => hj he.symm)] at hn
        exact h n hn
      · exact absurd h hj

theorem posFold_snappedAt (g : ℚ) (f : ℕ → ℚ) (yc : ℚ) :
    ∀ (ps : List (ℕ × ℕ)) (ns : List LNode) (j : ℕ),
      (SnappedAt g ns j ∨ j ∈ ps.map Prod.snd) →
      SnappedAt g (ps.foldl (fun acc p => setNodePos acc p.2
        (T2TLayout.snapToGrid g (f p.1)) (T2TLayout.snapToGrid g yc)) ns) j := by
  intro ps
  induction ps with
  | nil =>
    intro ns j h
    rcases h with h | h
    · exact h
    · simp at h
  | cons p rest ih =>
    intro ns j h
    rw [List.foldl_cons]
    apply ih
    rcases h with h | h
    · exact Or.inl (setNodePos_snappedAt g ns p.2 _ _
        (snapToGrid_isSnapped g _) (snapToGrid_isSnapped g _) j (Or.inl h))
    · by_cases hj : j = p.2
      · exact Or.inl (setNodePos_snappedAt g ns p.2 _ _
          (snapToGrid_isSnapped g _) (snapToGrid_isSnapped g _) j (Or.inr hj))
      · rw [List.map_cons] at h
        rcases List.mem_cons.mp h with h' | h'
        · exact absurd h' hj
        · exact Or.inr h' 

theorem posFold_length (g : ℚ) (f : ℕ → ℚ) (yc : ℚ) :
    ∀ (ps : List (ℕ × ℕ)) (ns : List LNode),
      (ps.foldl (fun acc p => setNodePos acc p.2
        (T2TLayout.snapToGrid g (f p.1)) (T2TLayout.snapToGrid g yc)) ns).length =
      ns.length := by
  intro ps
  induction ps with
  | nil => intro ns; rfl
  | cons p rest ih =>
    intro ns
    rw [List.foldl_cons, ih, setNodePos_length]

theorem positionTier_snappedAt (g sx yc sp : ℚ) (tier : List ℕ) (ns : List LNode)
    (j : ℕ) (h : SnappedAt g ns j ∨ j ∈ tier) :
    SnappedAt g (T2TLayout.positionTier g sx yc sp tier ns) j := by
  unfold T2TLayout.positionTier
  by_cases htier : tier.length = 0
  · rw [if_pos htier]
    rcases h with h | h
    · exact h
    · rw [List.length_eq_zero.mp htier] at h
      simp at h
  · rw [if_neg htier]
    refine posFold_snappedAt g
      (fun k => max sx (((2000 : ℚ) - ((tier.length : ℚ) - 1) * sp) / 2) + (k : ℚ) * sp)
      yc tier.enum ns j ?_
    rcases h with h | h
    · exact Or.inl h
    · exact Or.inr (by rw [enum_map_snd]; exact h)

theorem positionTier_length (g sx yc sp : ℚ) (tier : List ℕ) (ns : List LNode) :
    (T2TLayout.positionTier g sx yc sp tier ns).length = ns.length := by
  unfold T2TLayout.positionTier
  by_cases htier : tier.length = 0
  · rw [if_pos htier]
  · rw [if_neg htier]
    exact posFold_length g
      (fun k => max sx (((2000 : ℚ) - ((tier.length : ℚ) - 1) * sp) / 2) + (k : ℚ) * sp)
      yc tier.enum ns

theorem tierOf_cases (t : String) :
    T2TLayout.tierOf t = "actor" ∨ T2TLayout.tierOf t = "process" ∨
      T2TLayout.tierOf t = "store" := by
  unfold T2TLayout.tierOf
  split_ifs <;> simp

theorem calculateTieredLayout_snappedAt (g : ℚ) (ns : List LNode) (j : ℕ) :
    SnappedAt g (T2TLayout.calculateTieredLayout g ns) j := by
  by_cases hj : j < ns.length
  · obtain ⟨n, hn⟩ : ∃ n, ns[j]? = some n := by
      rw [List.getElem?_eq_getElem hj]
      exact ⟨ns[j], rfl⟩
    have henum : (j, n) ∈ ns.enum := mem_enum_of_getElem? ns j n hn
    unfold T2TLayout.calculateTieredLayout
    rcases tierOf_cases n.type with hcase | hcase | hcase
    · have hmem : j ∈ ((ns.enum.filter
          (fun p => T2TLayout.tierOf p.2.type = "actor")).map Prod.fst) :=
        List.mem_map.mpr ⟨(j, n), List.mem_filter.mpr ⟨henum, by simpa using hcase⟩, rfl⟩
      exact positionTier_snappedAt _ _ _ _ _ _ _ (Or.inl
        (positionTier_snappedAt _ _ _ _ _ _ _ (Or.inl
          (positionTier_snappedAt _ _ _ _ _ _ _ (Or.inr hmem)))))
    · have hmem : j ∈ ((ns.enum.filter
          (fun p => T2TLayout.tierOf p.2.type = "process")).map Prod.fst) :=
        List.mem_map.mpr ⟨(j, n), List.mem_filter.mpr ⟨henum, by simpa using hcase⟩, rfl⟩
      exact positionTier_snappedAt _ _ _ _ _ _ _ (Or.inl
        (positionTier_snappedAt _ _ _ _ _ _ _ (Or.inr hmem)))
    · have hmem : j ∈ ((ns.enum.filter
          (fun p => T2TLayout.tierOf p.2.type = "store")).map Prod.fst) :=
        List.mem_map.mpr ⟨(j, n), List.mem_filter.mpr ⟨henum, by simpa using hcase⟩, rfl⟩
      exact positionTier_snappedAt _ _ _ _ _ _ _ (Or.inr hmem)
  · intro n hn
    have hlen : (T2TLayout.calculateTieredLayout g ns).length = ns.length := by
      unfold T2TLayout.calculateTieredLayout
      rw [positionTier_length, positionTier_length, positionTier_length]
    rw [List.getElem?_eq_none (by omega)] at hn
    simp at hn

theorem calculateRadialLayout_snapped (g : ℚ) (jcos jsin : ℚ → ℚ) (piA : ℚ)
    (ns : List LNode) :
    ∀ n ∈ T2TLayout.calculateRadialLayout g jcos jsin piA ns,
      isSnapped g n.x ∧ isSnapped g n.y := by
  unfold T2TLayout.calculateRadialLayout
  by_cases h : ns.length = 0
  · rw [if_pos h]
    rw [List.length_eq_zero.mp h]
    intro n hn
    simp at hn
  · rw [if_neg h]
    intro n hn
    obtain ⟨p, _, hp⟩ := List.mem_map.mp hn
    rw [← hp]
    exact ⟨snapToGrid_isSnapped g _, snapToGrid_isSnapped g _⟩

theorem lastIndexOfId_spec (ns : List LNode) (id : String) (j : ℕ)
    (h : lastIndexOfId ns id = some j) : j < ns.length ∧ idAt ns j = id := by
  unfold lastIndexOfId at h
  have hmem : j ∈ (ns.enum.filter (fun p => p.2.id = id)).map Prod.fst :=
    List.mem_of_mem_getLast? (by simp [Option.mem_def, h])
  obtain ⟨p, hpf, hpj⟩ := List.mem_map.mp hmem
  have hpe := List.mem_filter.mp hpf
  have hget := getElem?_of_mem_enum ns p hpe.1
  have hid : p.2.id = id := by simpa using hpe.2
  subst hpj
  constructor
  · by_contra hge
    rw [List.getElem?_eq_none (by omega)] at hget
    simp at hget
  · unfold idAt
    rw [hget]
    simpa using hid

/-- The invariant the BFS loop maintains: every index placed in a level is
in range, and every visited id is the id of some index placed in a level. -/
def LevelsInv (ns : List LNode) (levels : List (List ℕ)) (visited : List String) : Prop :=
  (∀ lvl ∈ levels, ∀ j ∈ lvl, j < ns.length) ∧
  (∀ id ∈ visited, ∃ lvl ∈ levels, ∃ j ∈ lvl, idAt ns j = id)

theorem nextLevelOf_valid (ns : List LNode) (conns : List LConn)
    (visited : List String) (current : List ℕ) :
    ∀ i ∈ nextLevelOf ns conns visited current, i < ns.length := by
  intro i hi
  unfold nextLevelOf at hi
  obtain ⟨a, _, hi'⟩ := List.mem_flatMap.mp hi
  obtain ⟨c, _, hmatch⟩ := List.mem_filterMap.mp hi'
  cases hl : lastIndexOfId ns c.targetId with
  | none => rw [hl] at hmatch; simp at hmatch
  | some k =>
    rw [hl] at hmatch
    split at hmatch
    next j' heq =>
      split at hmatch
      · simp only [Option.some.injEq] at hmatch heq
        subst hmatch
        rw [heq] at hl
        exact (lastIndexOfId_spec ns c.targetId _ hl).1
      · simp at hmatch
    next heq => simp at heq

theorem buildLevelsGo_inv (ns : List LNode) (conns : List LConn) :
    ∀ (fuel : ℕ) (levels : List (List ℕ)) (visited : List String) (current : List ℕ),
      LevelsInv ns levels visited → (∀ i ∈ current, i < ns.length) →
      LevelsInv ns (T2TLayout.buildLevelsGo ns conns fuel levels visited current).1
        (T2TLayout.buildLevelsGo ns conns fuel levels visited current).2 := by
  intro fuel
  induction fuel with
  | zero => intro levels visited current hinv _; exact hinv
  | succ fuel ih =>
    intro levels visited current hinv hcur
    rw [T2TLayout.buildLevelsGo]
    by_cases hc : current.length = 0
    · rw [if_pos hc]; exact hinv
    · rw [if_neg hc]
      have hLsub : ∀ i ∈ levelFilter ns visited current, i < ns.length :=
        fun i hi => hcur i (List.mem_filter.mp hi).1
      by_cases hlf : (levelFilter ns visited current).length > 0
      · rw [if_pos hlf]
        have hinv' : LevelsInv ns (levels ++ [levelFilter ns visited current])
            (visited ++ (levelFilter ns visited current).map (idAt ns)) := by
          constructor
          · intro lvl hlvl j hj
            rcases List.mem_append.mp hlvl with h | h
            · exact hinv.1 lvl h j hj
            · rw [List.mem_singleton] at h
              subst h
              exact hLsub j hj
          · intro id hid
            rcases List.mem_append.mp hid with h | h
            · obtain ⟨lvl, hl, hrest⟩ := hinv.2 id h
              exact ⟨lvl, List.mem_append_left _ hl, hrest⟩
            · obtain ⟨j, hj, hjid⟩ := List.mem_map.mp h
              exact ⟨levelFilter ns visited current,
                List.mem_append_right _ (List.mem_singleton_self _), j, hj, hjid⟩
        by_cases hbrk : (levels ++ [levelFilter ns visited current]).length > 20
        · rw [if_pos hbrk]; exact hinv'
        · rw [if_neg hbrk]
          exact ih _ _ _ hinv' (nextLevelOf_valid ns conns _ current)
      · rw [if_neg hlf]
        by_cases hbrk : levels.length > 20
        · rw [if_pos hbrk]; exact hinv
        · rw [if_neg hbrk]
          exact ih _ _ _ hinv (nextLevelOf_valid ns conns _ current)

theorem hierarchyLevels_cover (ns : List LNode) (conns : List LConn) (roots : List ℕ)
    (hroots : ∀ i ∈ roots, i < ns.length)
    (hnodup : (ns.map LNode.id).Nodup) (j : ℕ) (n : LNode)
    (hget : ns[j]? = some n) :
    ∃ lvl ∈ T2TLayout.buildHierarchyLevels ns conns roots, j ∈ lvl := by
  have hinv := buildLevelsGo_inv ns conns 64 [] [] roots ⟨by simp, by simp⟩ hroots
  unfold T2TLayout.buildHierarchyLevels
  by_cases hvis :
      (T2TLayout.buildLevelsGo ns conns 64 [] [] roots).2.contains n.id = true
  · have hid : n.id ∈ (T2TLayout.buildLevelsGo ns conns 64 [] [] roots).2 := by
      simpa using hvis
    obtain ⟨lvl, hlvl, j', hj', hid'⟩ := hinv.2 n.id hid
    have hj'lt : j' < ns.length := hinv.1 lvl hlvl j' hj'
    obtain ⟨n', hn'⟩ : ∃ n', ns[j']? = some n' := by
      rw [List.getElem?_eq_getElem hj'lt]
      exact ⟨_, rfl⟩
    have hn'id : n'.id = n.id := by
      unfold idAt at hid'
      rw [hn'] at hid'
      simpa using hid'
    have hjj : j' = j := by
      have h1 : (ns.map LNode.id)[j']? = some n.id := by
        rw [List.getElem?_map, hn']
        simp [hn'id]
      have h2 : (ns.map LNode.id)[j]? = some n.id := by
        rw [List.getElem?_map, hget]
        simp
      exact List.getElem?_inj (by simpa using hj'lt) hnodup (h1.trans h2.symm)
    refine ⟨lvl, ?_, hjj ▸ hj'⟩
    split_ifs
    · exact List.mem_append_left _ hlvl
    · exact hlvl
  · have hjmem : j ∈ (ns.enum.filter (fun p =>
        ¬ (T2TLayout.buildLevelsGo ns conns 64 [] [] roots).2.contains p.2.id)).map
          Prod.fst :=
      List.mem_map.mpr ⟨(j, n),
        List.mem_filter.mpr ⟨mem_enum_of_getElem? ns j n hget, by simpa using hvis⟩, rfl⟩
    have hne : ((ns.enum.filter (fun p =>
        ¬ (T2TLayout.buildLevelsGo ns conns 64 [] [] roots).2.contains p.2.id)).map
          Prod.fst).length > 0 :=
      List.length_pos.mpr (List.ne_nil_of_mem hjmem)
    rw [if_pos hne]
    exact ⟨_, List.mem_append_right _ (List.mem_singleton_self _), hjmem⟩

theorem posLevels_snappedAt (g : ℚ) :
    ∀ (lvls : List (ℕ × List ℕ)) (ns : List LNode) (j : ℕ),
      (SnappedAt g ns j ∨ ∃ lv ∈ lvls, j ∈ lv.2) →
      SnappedAt g (lvls.foldl (fun acc p =>
        T2TLayout.positionTier g 100 (100 + 400 * (p.1 : ℚ)) 300 p.2 acc) ns) j := by
  intro lvls
  induction lvls with
  | nil =>
    intro ns j h
    rcases h with h | ⟨lv, hlv, _⟩
    · exact h
    · simp at hlv
  | cons p rest ih =>
    intro ns j h
    rw [List.foldl_cons]
    apply ih
    rcases h with h | ⟨lv, hlv, hj⟩
    · exact Or.inl (positionTier_snappedAt _ _ _ _ _ _ _ (Or.inl h))
    · rcases List.mem_cons.mp hlv with h' | h'
      · subst h'
        exact Or.inl (positionTier_snappedAt _ _ _ _ _ _ _ (Or.inr hj))
      · exact Or.inr ⟨lv, h', hj⟩

theorem posLevels_length (g : ℚ) :
    ∀ (lvls : List (ℕ × List ℕ)) (ns : List LNode),
      (lvls.foldl (fun acc p =>
        T2TLayout.positionTier g 100 (100 + 400 * (p.1 : ℚ)) 300 p.2 acc) ns).length =
      ns.length := by
  intro lvls
  induction lvls with
  | nil => intro ns; rfl
  | cons p rest ih =>
    intro ns
    rw [List.foldl_cons, ih, positionTier_length]

theorem enumFilterMapFst_valid {α : Type} (l : List α) (p : ℕ × α → Bool) :
    ∀ i ∈ (l.enum.filter p).map Prod.fst, i < l.length := by
  intro i hi
  obtain ⟨q, hq, hqi⟩ := List.mem_map.mp hi
  have hget := getElem?_of_mem_enum l q (List.mem_filter.mp hq).1
  subst hqi
  by_contra hge
  rw [List.getElem?_eq_none (by omega)] at hget
  simp at hget

theorem calculateHierarchicalLayout_snappedAt (g : ℚ) (ns : List LNode)
    (conns : List LConn) (hnodup : (ns.map LNode.id).Nodup) (j : ℕ) :
    SnappedAt g (T2TLayout.calculateHierarchicalLayout g ns conns) j := by
  unfold T2TLayout.calculateHierarchicalLayout
  by_cases hroots : ((ns.enum.filter (fun p =>
      ¬ (conns.map LConn.targetId).contains p.2.id)).map Prod.fst).length = 0
  · rw [if_pos hroots]
    exact calculateTieredLayout_snappedAt g ns j
  · rw [if_neg hroots]
    by_cases hj : j < ns.length
    · obtain ⟨n, hn⟩ : ∃ n, ns[j]? = some n := by
        rw [List.getElem?_eq_getElem hj]
        exact ⟨_, rfl⟩
      obtain ⟨lvl, hlvl, hjl⟩ := hierarchyLevels_cover ns conns
        ((ns.enum.filter (fun p =>
          ¬ (conns.map LConn.targetId).contains p.2.id)).map Prod.fst)
        (enumFilterMapFst_valid ns _) hnodup j n hn
      obtain ⟨k, hk⟩ := List.mem_iff_getElem?.mp hlvl
      exact posLevels_snappedAt g _ ns j
        (Or.inr ⟨(k, lvl), mem_enum_of_getElem? _ k lvl hk, hjl⟩)
    · intro n hn
      rw [List.getElem?_eq_none (by rw [posLevels_length]; omega)] at hn
      simp at hn

/-- C6 (amended): for every grid, every node array with
pairwise-distinct ids, every connection array, every cosine/sine/π
approximation, and each of the three algorithm names, every node returned
by `calculateLayout` has `x` and `y` that are exact integer multiples of
the configured `gridSnap`.  (The distinct-id hypothesis is forced by the
hierarchical algorithm, whose visited-set bookkeeping is keyed by node id;
see the counterexample.) -/
theorem C6_layout_snaps_to_grid (g : ℚ) (jcos jsin : ℚ → ℚ) (piA : ℚ)
    (ns : List LNode) (conns : List LConn) (alg : String) (out : List LNode)
    (halg : alg ∈ (["tiered", "radial", "hierarchical"] : List String))
    (hnodup : (ns.map LNode.id).Nodup)
    (hout : T2TLayout.calculateLayout g jcos jsin piA ns conns alg = Except.ok out) :
    ∀ n ∈ out, isSnapped g n.x ∧ isSnapped g n.y := by
  intro n hn
  obtain ⟨j, hj⟩ := List.mem_iff_getElem?.mp hn
  unfold T2TLayout.calculateLayout at hout
  rcases (by simpa using halg :
    alg = "tiered" ∨ alg = "radial" ∨ alg = "hierarchical") with h | h | h
  · rw [if_pos h] at hout
    simp only [Except.ok.injEq] at hout
    subst hout
    exact calculateTieredLayout_snappedAt g ns j n hj
  · rw [if_neg (by rw [h]; decide), if_pos h] at hout
    simp only [Except.ok.injEq] at hout
    subst hout
    exact calculateRadialLayout_snapped g jcos jsin piA ns n hn
  · rw [if_neg (by rw [h]; decide), if_neg (by rw [h]; decide), if_pos h] at hout
    simp only [Except.ok.injEq] at hout
    subst hout
    exact calculateHierarchicalLayout_snappedAt g ns conns hnodup j n hj

theorem setNodePos_getElem_ne (ns : List LNode) (i : ℕ) (x y : ℚ) (j : ℕ)
    (h : j ≠ i) : (setNodePos ns i x y)[j]? = ns[j]? := by
  unfold setNodePos
  cases hi : ns[i]? with
  | none => rfl
  | some m => exact List.getElem?_set_ne (fun he => h he.symm)

theorem posFold_getElem_ne (g : ℚ) (f : ℕ → ℚ) (yc : ℚ) :
    ∀ (ps : List (ℕ × ℕ)) (ns : List LNode) (j : ℕ), (∀ p ∈ ps, p.2 ≠ j) →
      (ps.foldl (fun acc p => setNodePos acc p.2
        (T2TLayout.snapToGrid g (f p.1)) (T2TLayout.snapToGrid g yc)) ns)[j]? = ns[j]? := by
  intro ps
  induction ps with
  | nil => intro ns j _; rfl
  | cons p rest ih =>
    intro ns j h
    rw [List.foldl_cons, ih _ j (fun q hq => h q (List.mem_cons_of_mem p hq)),
      setNodePos_getElem_ne ns p.2 _ _ j (h p (List.mem_cons_self p rest)).symm]

theorem positionTier_getElem_ne (g sx yc sp : ℚ) (tier : List ℕ) (ns : List LNode)
    (j : ℕ) (h : j ∉ tier) :
    (T2TLayout.positionTier g sx yc sp tier ns)[j]? = ns[j]? := by
  unfold T2TLayout.positionTier
  by_cases htier : tier.length = 0
  · rw [if_pos htier]
  · rw [if_neg htier]
    refine posFold_getElem_ne g
      (fun k => max sx (((2000 : ℚ) - ((tier.length : ℚ) - 1) * sp) / 2) + (k : ℚ) * sp)
      yc tier.enum ns j ?_
    intro p hp hpj
    apply h
    rw [← hpj, ← enum_map_snd tier]
    exact List.mem_map_of_mem Prod.snd hp

theorem posLevels_getElem_ne (g : ℚ) (j : ℕ) :
    ∀ (lvls : List (ℕ × List ℕ)) (ns : List LNode), (∀ p ∈ lvls, j ∉ p.2) →
      (lvls.foldl (fun acc p =>
        T2TLayout.positionTier g 100 (100 + 400 * (p.1 : ℚ)) 300 p.2 acc) ns)[j]? =
      ns[j]? := by
  intro lvls
  induction lvls with
  | nil => intro ns _; rfl
  | cons p rest ih =>
    intro ns h
    rw [List.foldl_cons, ih _ (fun q hq => h q (List.mem_cons_of_mem p hq)),
      positionTier_getElem_ne g 100 _ 300 p.2 ns j (h p (List.mem_cons_self p rest))]

/-- Nodes refuting the unrestricted C6 claim: two distinct nodes share the
id `a`, so the hierarchical visited-set (keyed by id) marks both visited
when it positions only the last one. -/
def cexNodes : List LNode :=
  [⟨"a", "process", 50, 50⟩, ⟨"a", "process", 55, 55⟩, ⟨"c", "process", 60, 60⟩]

/-- The connection making `c` the only BFS root, with `a` its target. -/
def cexConns : List LConn := [⟨"c", "a"⟩]

theorem cex_hier_getElem :
    (T2TLayout.calculateHierarchicalLayout 100 cexNodes cexConns)[0]? =
      some ⟨"a", "process", 50, 50⟩ := by
  unfold T2TLayout.calculateHierarchicalLayout
  have hroots : ¬ ((((cexNodes.enum.filter (fun p =>
      ¬ (cexConns.map LConn.targetId).contains p.2.id)).map Prod.fst)).length = 0) := by
    decide
  rw [if_neg hroots]
  exact (posLevels_getElem_ne 100 0 _ cexNodes (by decide)).trans rfl

/-- C6 counterexample to the claim as stated (no restriction on node ids):
with two nodes sharing an id, the hierarchical algorithm positions only
the last of them, and the first keeps its original coordinates, which are
not a multiple of the grid. -/
theorem C6_counterexample :
    ∃ out, T2TLayout.calculateLayout 100 (fun _ => 0) (fun _ => 0) 0
        cexNodes cexConns "hierarchical" = Except.ok out ∧
      ∃ n ∈ out, ¬ isSnapped 100 n.x := by
  refine ⟨T2TLayout.calculateHierarchicalLayout 100 cexNodes cexConns, rfl,
    ⟨"a", "process", 50, 50⟩, List.mem_iff_getElem?.mpr ⟨0, cex_hier_getElem⟩, ?_⟩
  rintro ⟨k, hk⟩
  have hk50 : (50 : ℚ) = (k : ℚ) * 100 := hk
  have h1 : ((2 * k : ℤ) : ℚ) = 1 := by push_cast; linarith
  have h2 : (2 * k : ℤ) = 1 := by exact_mod_cast h1
  omega

/-- The node list of the C6 witness (a single process node). -/
def witNodes : List LNode := [⟨"a", "process", 50, 50⟩]

/-- Concrete witness for the amended C6: the tiered layout of a single
process node with a duplicate-free id list is snapped to the 100-grid. -/
theorem C6_layout_snaps_to_grid_witness :
    ("tiered" ∈ (["tiered", "radial", "hierarchical"] : List String)) ∧
    (witNodes.map LNode.id).Nodup ∧
    T2TLayout.calculateLayout 100 (fun _ => 0) (fun _ => 0) 0 witNodes [] "tiered" =
      Except.ok (T2TLayout.calculateTieredLayout 100 witNodes) ∧
    ∀ n ∈ T2TLayout.calculateTieredLayout 100 witNodes,
      isSnapped 100 n.x ∧ isSnapped 100 n.y :=
  ⟨by decide, by decide, rfl,
    C6_layout_snaps_to_grid 100 (fun _ => 0) (fun _ => 0) 0 witNodes [] "tiered"
      (T2TLayout.calculateTieredLayout 100 witNodes) (by decide) (by decide) rfl⟩

/-! ### Entity extractor (part_005) and its pattern helpers (part_006)

The extractor runs regexes of two very different kinds.

* `String.prototype.matchAll` patterns (`nodePatterns`, `connectionPatterns`,
  the per-call `new RegExp(pattern.source, 'gi')` of the OS loop, and the
  port scanner): `matchAll` iterates a *clone* of the regex, so the
  module-level object keeps `lastIndex = 0` and these calls are pure
  functions of the text.  Their match lists enter the embedding as an
  explicit `RegexIn` parameter.
* `RegExp.prototype.test` on the *module-level* `/g`-flagged objects
  (`servicePatterns`, `protocolPatterns`, `rolePatterns.attacker`,
  `rolePatterns.database`): `test` on a global regex starts searching at
  the object's `lastIndex`, stores the match end back into `lastIndex` on
  success and resets it to `0` on failure.  These patterns are keyword
  alternations `\b(w1|w2|...)\b` (with `\s*` joining multi-word keywords,
  and the one lookahead `HTTP(?!S)` made redundant by the trailing `\b`),
  and are embedded below as a tiny matcher with exactly that search
  semantics, the `lastIndex` values being threaded through the extractor
  state. -/

/-- JavaScript `toLowerCase` (ASCII idealisation). -/
def jsToLower (s : String) : String := String.mk (s.data.map Char.toLower)

/-- JavaScript `toUpperCase` (ASCII idealisation). -/
def jsToUpper (s : String) : String := String.mk (s.data.map Char.toUpper)

/-- A JS `\w` word character: `[A-Za-z0-9_]`. -/
def isWordChar (c : Char) : Bool := c.isAlpha || c.isDigit || c = '_'

/-- Word-ness of the character at an index (out of range is not a word). -/
def wordAt (s : List Char) (i : ℕ) : Bool :=
  match s[i]? with
  | some c => isWordChar c
  | none => false

/-- A JS `\b` word boundary holds at a position. -/
def boundaryAt (s : List Char) (p : ℕ) : Bool :=
  if p = 0 then wordAt s 0 else wordAt s (p - 1) != wordAt s p

/-- The literal `w` occurs at position `p` of `s`. -/
def litAt (s : List Char) (p : ℕ) (w : List Char) : Bool :=
  (s.drop p).take w.length = w

/-- Length of the whitespace run starting at position `q` (JS `\s*`,
greedy; safe without backtracking because every keyword segment starts
with a non-whitespace character). -/
def wsRunAt (s : List Char) (q : ℕ) : ℕ :=
  ((s.drop q).takeWhile (fun c => c.isWhitespace)).length

/-- End position of one alternative, given as its `\s*`-separated literal
segments, matched at position `p`; `none` if it does not match there. -/
def segsEndAt (s : List Char) : List (List Char) → ℕ → Option ℕ
  | [], p => some p
  | [w], p => if litAt s p w then some (p + w.length) else none
  | w :: w2 :: rest, p =>
    if litAt s p w then
      segsEndAt s (w2 :: rest) (p + w.length + wsRunAt s (p + w.length))
    else none

/-- One alternative of a `\b(...)\b` pattern matched at `p`, with both
word boundaries checked. -/
def altEndAt (s : List Char) (p : ℕ) (alt : List (List Char)) : Option ℕ :=
  if boundaryAt s p then
    match segsEndAt s alt p with
    | some e => if boundaryAt s e then some e else none
    | none => none
  else none

/-- The pattern matched at position `p`: the first alternative (in regex
order) that matches, as JS ordered alternation does. -/
def patMatchAt (s : List Char) (alts : List (List (List Char))) (p : ℕ) : Option ℕ :=
  alts.findSome? (fun alt => altEndAt s p alt)

/-- Leftmost match at a position `≥ start`: the regex engine advances the
position one by one from `lastIndex`. -/
def patSearch (s : List Char) (alts : List (List (List Char))) (start : ℕ) :
    Option (ℕ × ℕ) :=
  ((List.range (s.length + 1)).drop start).findSome?
    (fun p => (patMatchAt s alts p).map (fun e => (p, e)))

/-- `regex.test(s)` on a module-level `/gi` regex with current
`lastIndex = li`: returns the verdict and the new `lastIndex` (match end
on success, `0` on failure).  Case-insensitivity is the ASCII
lowercase-both idealisation. -/
def jsTestG (alts : List (List (List Char))) (s : String) (li : ℕ) : Bool × ℕ :=
  match patSearch (jsToLower s).data alts li with
  | some pe => (true, pe.2)
  | none => (false, 0)

/-- Keyword-alternation syntax: alternatives given as lists of lowercase
literal segments. -/
def kwPat (alts : List (List String)) : List (List (List Char)) :=
  alts.map (fun a => a.map String.data)

/-- All matches of `/port\s*(\d+)/gi` (no word boundaries!), leftmost,
non-overlapping, continuing after each match end, as `matchAll` yields
them; returns the digit captures.  Fuel strictly exceeds the scan
positions. -/
def portScanGo (s : List Char) : ℕ → ℕ → List String
  | 0, _ => []
  | fuel + 1, p =>
    if litAt s p ['p', 'o', 'r', 't'] then
      if ((s.drop (p + 4 + wsRunAt s (p + 4))).takeWhile Char.isDigit).length > 0 then
        String.mk ((s.drop (p + 4 + wsRunAt s (p + 4))).takeWhile Char.isDigit) ::
          portScanGo s fuel
            (p + 4 + wsRunAt s (p + 4) +
              ((s.drop (p + 4 + wsRunAt s (p + 4))).takeWhile Char.isDigit).length)
      else portScanGo s fuel (p + 1)
    else portScanGo s fuel (p + 1)

/-- The port matches of `servicesText` (case-insensitive: lowered input,
digit captures unaffected). -/
def portScan (s : String) : List String := portScanGo (jsToLower s).data (s.length + 1) 0

/-- First index at which `sub` occurs in `s` (JS `indexOf`; `none` for −1). -/
def findSubstrIdx (s sub : List Char) : Option ℕ :=
  (List.range (s.length + 1)).find? (fun i => (s.drop i).take sub.length = sub)

/-- JS `String.prototype.includes`. -/
def jsIncludes (s sub : String) : Bool := decide (List.IsInfix sub.data s.data)

/-- `T2TPatterns.rolePatterns.attacker` (t2tPatterns.js line 224). -/
def attackerPat : List (List (List Char)) :=
  kwPat [["attacker"], ["red", "team"], ["offensive"], ["kali"], ["penetration"], ["pentest"]]

/-- `T2TPatterns.rolePatterns.database` (t2tPatterns.js line 229). -/
def databasePat : List (List (List Char)) :=
  kwPat [["database"], ["db"], ["mysql"], ["postgresql"], ["mongo"]]

/-- The storage check of `classifyNodeType` (t2tPatterns.js line 306); a
fresh non-global literal, so stateless. -/
def storagePat : List (List (List Char)) :=
  kwPat [["storage"], ["nas"], ["san"], ["backup"]]

/-- `T2TPatterns.servicePatterns` in `Object.entries` order
(t2tPatterns.js lines 166-176). -/
def servicePatternsList : List (String × List (List (List Char))) :=
  [("web", kwPat [["http"], ["https"], ["apache"], ["nginx"], ["iis"],
      ["port", "80"], ["port", "443"], ["web", "server"]]),
   ("database", kwPat [["mysql"], ["postgresql"], ["mongodb"], ["mssql"], ["oracle"],
      ["port", "3306"], ["port", "5432"], ["port", "1433"], ["database"], ["db"]]),
   ("ssh", kwPat [["ssh"], ["port", "22"], ["openssh"]]),
   ("rdp", kwPat [["rdp"], ["remote", "desktop"], ["port", "3389"]]),
   ("smb", kwPat [["smb"], ["cifs"], ["file", "sharing"], ["port", "445"]]),
   ("dns", kwPat [["dns"], ["port", "53"], ["name", "resolution"]]),
   ("ldap", kwPat [["ldap"], ["active", "directory"], ["ad"], ["port", "389"]]),
   ("metasploit", kwPat [["metasploit"], ["msfconsole"], ["meterpreter"]]),
   ("burpsuite", kwPat [["burp"], ["burpsuite"]])]

/-- `T2TPatterns.protocolPatterns` in `Object.entries` order
(t2tPatterns.js lines 208-218); the `(?!S)` of `http` is redundant under
the trailing `\b` because `S` is a word character. -/
def protocolPatternsList : List (String × List (List (List Char))) :=
  [("https", kwPat [["https"], ["tls"], ["ssl"], ["port", "443"]]),
   ("http", kwPat [["http"], ["port", "80"]]),
   ("ssh", kwPat [["ssh"], ["port", "22"]]),
   ("rdp", kwPat [["rdp"], ["port", "3389"]]),
   ("mysql", kwPat [["mysql"], ["port", "3306"]]),
   ("postgresql", kwPat [["postgresql"], ["port", "5432"]]),
   ("smb", kwPat [["smb"], ["port", "445"]]),
   ("ldap", kwPat [["ldap"], ["port", "389"]]),
   ("dns", kwPat [["dns"], ["port", "53"]])]

/-- Split on the dot character (for the anchored IPv4 regex). -/
def splitDots : List Char → List Char → List (List Char)
  | [], acc => [acc.reverse]
  | c :: rest, acc =>
    if c = '.' then acc.reverse :: splitDots rest [] else splitDots rest (c :: acc)

/-- Decimal value of a digit run. -/
def digitsVal (l : List Char) : ℕ := l.foldl (fun a c => 10 * a + (c.toNat - 48)) 0

/-- One octet of the anchored IPv4 pattern
`25[0-5]|2[0-4][0-9]|[01]?[0-9][0-9]?`: one to three digits whose value
is at most 255 (the three-digit alternatives cover exactly the values
100-255 with leading 1 or 2, and `[01]?[0-9][0-9]?` the rest). -/
def isOctet (p : List Char) : Bool :=
  decide (1 ≤ p.length) && decide (p.length ≤ 3) && p.all Char.isDigit &&
    decide (digitsVal p ≤ 255)

/-- `PatternHelpers.isValidIPv4` (t2tPatterns.js lines 264-267). -/
def PatternHelpers.isValidIPv4 (ip : String) : Bool :=
  (splitDots ip.data []).length = 4 && (splitDots ip.data []).all isOctet

/-- `PatternHelpers.getContextWindow` (t2tPatterns.js lines 276-284). -/
def PatternHelpers.getContextWindow (text keyword : String) (windowSize : ℕ) : String :=
  match findSubstrIdx (jsToLower text).data (jsToLower keyword).data with
  | none => ""
  | some i =>
    String.mk ((text.data.drop (i - windowSize)).take
      (min text.length (i + keyword.length + windowSize) - (i - windowSize)))

/-- `PatternHelpers.classifyNodeType` (t2tPatterns.js lines 293-312),
threading the `lastIndex` values of the two module-level `/gi` role
patterns it calls `test` on.  Returns the type and the new
(`attacker`, `database`) `lastIndex` pair. -/
def PatternHelpers.classifyNodeType (aLI dLI : ℕ) (name role context : String) :
    String × ℕ × ℕ :=
  if (jsTestG attackerPat (name ++ " " ++ role ++ " " ++ context) aLI).1 then
    ("actor", (jsTestG attackerPat (name ++ " " ++ role ++ " " ++ context) aLI).2, dLI)
  else if (jsTestG databasePat (name ++ " " ++ role ++ " " ++ context) dLI).1 then
    ("store", (jsTestG attackerPat (name ++ " " ++ role ++ " " ++ context) aLI).2,
      (jsTestG databasePat (name ++ " " ++ role ++ " " ++ context) dLI).2)
  else if (jsTestG storagePat (name ++ " " ++ role ++ " " ++ context) 0).1 then
    ("store", (jsTestG attackerPat (name ++ " " ++ role ++ " " ++ context) aLI).2,
      (jsTestG databasePat (name ++ " " ++ role ++ " " ++ context) dLI).2)
  else
    ("process", (jsTestG attackerPat (name ++ " " ++ role ++ " " ++ context) aLI).2,
      (jsTestG databasePat (name ++ " " ++ role ++ " " ++ context) dLI).2)

/-- Tests all service patterns against the prefix of `lis` (the stored
`lastIndex` values), in entry order: per-entry verdicts and new
`lastIndex` values. -/
def svcTestsGo : List (String × List (List (List Char))) → List ℕ → String →
    List (String × Bool) × List ℕ
  | [], _, _ => ([], [])
  | _ :: _, [], _ => ([], [])
  | e :: rest, li :: lis, s =>
    ((e.1, (jsTestG e.2 s li).1) :: (svcTestsGo rest lis s).1,
      (jsTestG e.2 s li).2 :: (svcTestsGo rest lis s).2)

/-- `PatternHelpers.extractServices` (t2tPatterns.js lines 319-335):
every service pattern is `test`ed (each updating its `lastIndex`), the
matching service names are collected in entry order, then the
`port-<n>` strings, deduplicated with `Set` semantics. -/
def PatternHelpers.extractServices (servicesText : String) (lis : List ℕ) :
    List String × List ℕ :=
  (dedupFirst
    ((((svcTestsGo servicePatternsList lis servicesText).1.filter
        (fun p => p.2)).map Prod.fst) ++
      (portScan servicesText).map (fun d => "port-" ++ d)),
   (svcTestsGo servicePatternsList lis servicesText).2)

/-- The `for...of Object.entries` loop of `detectProtocol`: stops at the
first pattern whose `test` succeeds; the patterns tested on the way have
their `lastIndex` values updated, later ones keep theirs. -/
def protoGo : List (String × List (List (List Char))) → List ℕ → String →
    Option String × List ℕ
  | [], lis, _ => (none, lis)
  | _ :: _, [], _ => (none, [])
  | e :: rest, li :: lis, s =>
    if (jsTestG e.2 s li).1 then (some e.1, (jsTestG e.2 s li).2 :: lis)
    else ((protoGo rest lis s).1, (jsTestG e.2 s li).2 :: (protoGo rest lis s).2)

/-- `PatternHelpers.detectProtocol` (t2tPatterns.js lines 342-350). -/
def PatternHelpers.detectProtocol (context : String) (lis : List ℕ) :
    String × List ℕ :=
  ((match (protoGo protocolPatternsList lis context).1 with
    | some p => jsToUpper p
    | none => "TCP"),
   (protoGo protocolPatternsList lis context).2)

/-- `PatternHelpers.isEncryptedProtocol` (t2tPatterns.js lines 357-360). -/
def PatternHelpers.isEncryptedProtocol (protocol : String) : Bool :=
  (["HTTPS", "SSH", "LDAPS", "SMTPS", "FTPS", "TLS", "SSL"] : List String).contains
    (jsToUpper protocol)

/-- A node as the extractor builds it.  `metadata` keys that nothing in
the pipeline ever reads again (`rawServices`, `templateHint`,
`defaultRole`, `visionConfirmed`) and the `source` tag are omitted;
`mrole` is `metadata.role` and `extractedFrom` is
`metadata.extractedFrom`, `none` meaning the key is absent. -/
structure ENode where
  id : String
  name : String
  ipAddress : Option String
  type : String
  services : List String
  mrole : Option String
  extractedFrom : Option String
  confidence : ℚ
  deriving Repr, DecidableEq

/-- A connection as the extractor builds it (the unread
`metadata.sourceNode`/`targetNode` names are omitted). -/
structure EConn where
  id : String
  sourceId : String
  targetId : String
  protocol : String
  isEncrypted : Bool
  isPublicNetwork : Bool
  confidence : ℚ
  source : String
  deriving Repr, DecidableEq

/-- One `tableRow` match: the four capture groups. -/
structure TableMatch where
  hostname : String
  ipAddress : String
  role : String
  servicesText : String
  deriving Repr, DecidableEq

/-- One OS-pattern match of the `extractFromSystemNames` loop: the first
capture group plus the pattern entry's `hint` and `role`, flattened in
loop order. -/
structure OSMatch where
  capture : String
  hint : String
  role : String
  deriving Repr, DecidableEq

/-- One connection-pattern match: `match[1]`, `match[2]` (unused by the
single-capture patterns 3-5) and `match.index`. -/
structure ConnMatch where
  cap1 : String
  cap2 : String
  index : ℕ
  deriving Repr, DecidableEq

/-- The outputs of the `matchAll`-style (stateless) regex calls of one
`extract` run, in document order: the table rows, the inline
`Name (IP)` pairs, the OS matches, the `(name, role)` pairs of the
instrumentation patterns whose `test` succeeded, the legacy
`systemNames` matches (`match[0]`), and the six connection-pattern match
lists (indices 0-5). -/
structure RegexIn where
  tableMatches : List TableMatch
  inlineMatches : List (String × String)
  osMatches : List OSMatch
  instrMatches : List (String × String)
  sysMatches : List String
  connMatches : List (List ConnMatch)
  deriving Repr, DecidableEq

/-- Optional vision/OCR results: node objects shaped like text nodes and
connection objects shaped like text connections. -/
structure VisionResults where
  nodes : List ENode
  connections : List EConn
  deriving Repr, DecidableEq

/-- The extractor state: the `Map<nodeName, nodeData>` as an
insertion-ordered association list, the connections array, the uuid
counter, and the `lastIndex` values of the module-level `/g` patterns
(which survive across `extract` calls — they live on the imported
pattern objects, not on the extractor). -/
structure ExtractSt where
  nodes : List (String × ENode)
  connections : List EConn
  ctr : ℕ
  svcLI : List ℕ
  protoLI : List ℕ
  attackerLI : ℕ
  databaseLI : ℕ
  deriving Repr, DecidableEq

/-- `Map.get`. -/
def mapGet (m : List (String × ENode)) (k : String) : Option ENode :=
  (m.find? (fun p => p.1 = k)).map Prod.snd

/-- `Map.set` on a key already present (updates in place, preserving
insertion order); only ever called on present keys. -/
def mapSet (m : List (String × ENode)) (k : String) (v : ENode) :
    List (String × ENode) :=
  m.map (fun p => if p.1 = k then (k, v) else p)

/-- `getOrCreateNodeId` (part_005 lines 395-398); a fresh uuid consumes
the counter. -/
def getOrCreateNodeId (m : List (String × ENode)) (nodeName : String)
    (uuidFn : ℕ → String) (ctr : ℕ) : String × ℕ :=
  match mapGet m nodeName with
  | some n => (n.id, ctr)
  | none => (uuidFn ctr, ctr + 1)

/-- `addOrUpdateNode` (part_005 lines 404-418): merge into the node
stored under `nodeData.name` if present (`Object.assign` updates only
`ipAddress`, `services`, `metadata` and `confidence`; in particular `id`
and `type` keep their old values), else insert at the end. -/
def addOrUpdateNode (m : List (String × ENode)) (nd : ENode) :
    List (String × ENode) :=
  match mapGet m nd.name with
  | some ex => mapSet m nd.name
      { ex with
        ipAddress := jsOrStr nd.ipAddress ex.ipAddress,
        services := dedupFirst (ex.services ++ nd.services),
        mrole := (match nd.mrole with | some r => some r | none => ex.mrole),
        extractedFrom :=
          (match nd.extractedFrom with | some e => some e | none => ex.extractedFrom),
        confidence := max ex.confidence nd.confidence }
  | none => m ++ [(nd.name, nd)]

/-- `findNodeByNameOrIP` (part_005 lines 382-388): first stored node (in
insertion order) matching by name, or by a truthy ip compared strictly. -/
def findNodeByNameOrIP (m : List (String × ENode)) (name : String)
    (ipAddress : Option String) : Option ENode :=
  (m.map Prod.snd).find?
    (fun n => n.name = name || (!(jsStrFalsy ipAddress) && n.ipAddress = ipAddress))

/-- One table-row match processed (part_005 lines 70-94). -/
def tableStep (text : String) (uuidFn : ℕ → String) (st : ExtractSt)
    (m : TableMatch) : ExtractSt :=
  if jsTrim m.hostname = "" then st
  else
    { st with
      ctr := (getOrCreateNodeId st.nodes m.hostname uuidFn st.ctr).2,
      svcLI := (PatternHelpers.extractServices m.servicesText st.svcLI).2,
      attackerLI := (PatternHelpers.classifyNodeType st.attackerLI st.databaseLI
        m.hostname m.role (PatternHelpers.getContextWindow text m.hostname 200)).2.1,
      databaseLI := (PatternHelpers.classifyNodeType st.attackerLI st.databaseLI
        m.hostname m.role (PatternHelpers.getContextWindow text m.hostname 200)).2.2,
      nodes := addOrUpdateNode st.nodes
        { id := (getOrCreateNodeId st.nodes m.hostname uuidFn st.ctr).1,
          name := jsTrim m.hostname,
          ipAddress :=
            (if jsTrim m.ipAddress = "" then none else some (jsTrim m.ipAddress)),
          type := (PatternHelpers.classifyNodeType st.attackerLI st.databaseLI
            m.hostname m.role (PatternHelpers.getContextWindow text m.hostname 200)).1,
          services := (PatternHelpers.extractServices m.servicesText st.svcLI).1,
          mrole := some (jsTrim m.role),
          extractedFrom := some "table",
          confidence := 95 } }

/-- `extractFromTableRows` (part_005 lines 67-95). -/
def extractFromTableRows (text : String) (uuidFn : ℕ → String) :
    List TableMatch → ExtractSt → ExtractSt
  | [], st => st
  | m :: rest, st => extractFromTableRows text uuidFn rest (tableStep text uuidFn st m)

/-- One inline `Name (IP)` match processed (part_005 lines 104-131). -/
def inlineStep (text : String) (uuidFn : ℕ → String) (st : ExtractSt)
    (m : String × String) : ExtractSt :=
  if jsTrim m.1 = "" then st
  else if (match mapGet st.nodes (jsTrim m.1) with
      | some ex => decide (ex.extractedFrom = some "table")
      | none => false) then st
  else
    { st with
      ctr := (getOrCreateNodeId st.nodes m.1 uuidFn st.ctr).2,
      attackerLI := (PatternHelpers.classifyNodeType st.attackerLI st.databaseLI
        m.1 "" (PatternHelpers.getContextWindow text m.1 200)).2.1,
      databaseLI := (PatternHelpers.classifyNodeType st.attackerLI st.databaseLI
        m.1 "" (PatternHelpers.getContextWindow text m.1 200)).2.2,
      nodes := addOrUpdateNode st.nodes
        { id := (getOrCreateNodeId st.nodes m.1 uuidFn st.ctr).1,
          name := jsTrim m.1,
          ipAddress := some (jsTrim m.2),
          type := (PatternHelpers.classifyNodeType st.attackerLI st.databaseLI
            m.1 "" (PatternHelpers.getContextWindow text m.1 200)).1,
          services := [],
          mrole := none,
          extractedFrom := some "inline",
          confidence := 85 } }

/-- `extractFromInlineFormat` (part_005 lines 101-132). -/
def extractFromInlineFormat (text : String) (uuidFn : ℕ → String) :
    List (String × String) → ExtractSt → ExtractSt
  | [], st => st
  | m :: rest, st =>
    extractFromInlineFormat text uuidFn rest (inlineStep text uuidFn st m)

/-- One OS-pattern match processed (part_005 lines 145-174), threading
the `seenNames` set; the name is added to `seenNames` before the
`nodes.has` skip, as the source does. -/
def osStep (text : String) (uuidFn : ℕ → String) (acc : List String × ExtractSt)
    (m : OSMatch) : List String × ExtractSt :=
  if acc.1.contains (jsToLower (jsTrim m.capture)) then acc
  else if (mapGet acc.2.nodes (jsTrim m.capture)).isSome then
    (jsToLower (jsTrim m.capture) :: acc.1, acc.2)
  else
    (jsToLower (jsTrim m.capture) :: acc.1,
      { acc.2 with
        ctr := (getOrCreateNodeId acc.2.nodes (jsTrim m.capture) uuidFn acc.2.ctr).2,
        attackerLI := (PatternHelpers.classifyNodeType acc.2.attackerLI acc.2.databaseLI
          (jsTrim m.capture) m.role
          (PatternHelpers.getContextWindow text (jsTrim m.capture) 200)).2.1,
        databaseLI := (PatternHelpers.classifyNodeType acc.2.attackerLI acc.2.databaseLI
          (jsTrim m.capture) m.role
          (PatternHelpers.getContextWindow text (jsTrim m.capture) 200)).2.2,
        nodes := addOrUpdateNode acc.2.nodes
          { id := (getOrCreateNodeId acc.2.nodes (jsTrim m.capture) uuidFn acc.2.ctr).1,
            name := jsTrim m.capture,
            ipAddress := none,
            type := (PatternHelpers.classifyNodeType acc.2.attackerLI acc.2.databaseLI
              (jsTrim m.capture) m.role
              (PatternHelpers.getContextWindow text (jsTrim m.capture) 200)).1,
            services := [],
            mrole := none,
            extractedFrom := some "osPattern",
            confidence := 75 } })

/-- The OS-pattern loop. -/
def osLoop (text : String) (uuidFn : ℕ → String) :
    List OSMatch → List String × ExtractSt → List String × ExtractSt
  | [], acc => acc
  | m :: rest, acc => osLoop text uuidFn rest (osStep text uuidFn acc m)

/-- One instrumentation pattern processed (part_005 lines 178-203). -/
def instrStep (text : String) (uuidFn : ℕ → String) (acc : List String × ExtractSt)
    (m : String × String) : List String × ExtractSt :=
  if acc.1.contains (jsToLower m.1) then acc
  else if (mapGet acc.2.nodes m.1).isSome then (jsToLower m.1 :: acc.1, acc.2)
  else
    (jsToLower m.1 :: acc.1,
      { acc.2 with
        ctr := (getOrCreateNodeId acc.2.nodes m.1 uuidFn acc.2.ctr).2,
        attackerLI := (PatternHelpers.classifyNodeType acc.2.attackerLI acc.2.databaseLI
          m.1 m.2 (PatternHelpers.getContextWindow text m.1 200)).2.1,
        databaseLI := (PatternHelpers.classifyNodeType acc.2.attackerLI acc.2.databaseLI
          m.1 m.2 (PatternHelpers.getContextWindow text m.1 200)).2.2,
        nodes := addOrUpdateNode acc.2.nodes
          { id := (getOrCreateNodeId acc.2.nodes m.1 uuidFn acc.2.ctr).1,
            name := m.1,
            ipAddress := none,
            type := (PatternHelpers.classifyNodeType acc.2.attackerLI acc.2.databaseLI
              m.1 m.2 (PatternHelpers.getContextWindow text m.1 200)).1,
            services := [],
            mrole := none,
            extractedFrom := some "instrumentationPattern",
            confidence := 70 } })

/-- The instrumentation-pattern loop. -/
def instrLoop (text : String) (uuidFn : ℕ → String) :
    List (String × String) → List String × ExtractSt → List String × ExtractSt
  | [], acc => acc
  | m :: rest, acc => instrLoop text uuidFn rest (instrStep text uuidFn acc m)

/-- One legacy `systemNames` match processed (part_005 lines 207-233);
lookups use the raw `match[0]`, the stored name is trimmed. -/
def sysStep (text : String) (uuidFn : ℕ → String) (acc : List String × ExtractSt)
    (nodeName : String) : List String × ExtractSt :=
  if acc.1.contains (jsToLower nodeName) then acc
  else if (mapGet acc.2.nodes nodeName).isSome then (jsToLower nodeName :: acc.1, acc.2)
  else
    (jsToLower nodeName :: acc.1,
      { acc.2 with
        ctr := (getOrCreateNodeId acc.2.nodes nodeName uuidFn acc.2.ctr).2,
        attackerLI := (PatternHelpers.classifyNodeType acc.2.attackerLI acc.2.databaseLI
          nodeName "" (PatternHelpers.getContextWindow text nodeName 200)).2.1,
        databaseLI := (PatternHelpers.classifyNodeType acc.2.attackerLI acc.2.databaseLI
          nodeName "" (PatternHelpers.getContextWindow text nodeName 200)).2.2,
        nodes := addOrUpdateNode acc.2.nodes
          { id := (getOrCreateNodeId acc.2.nodes nodeName uuidFn acc.2.ctr).1,
            name := jsTrim nodeName,
            ipAddress := none,
            type := (PatternHelpers.classifyNodeType acc.2.attackerLI acc.2.databaseLI
              nodeName "" (PatternHelpers.getContextWindow text nodeName 200)).1,
            services := [],
            mrole := none,
            extractedFrom := some "systemName",
            confidence := 65 } })

/-- The legacy `systemNames` loop. -/
def sysLoop (text : String) (uuidFn : ℕ → String) :
    List String → List String × ExtractSt → List String × ExtractSt
  | [], acc => acc
  | m :: rest, acc => sysLoop text uuidFn rest (sysStep text uuidFn acc m)

/-- `extractFromSystemNames` (part_005 lines 139-234): the three loops
share one `seenNames` set. -/
def extractFromSystemNames (text : String) (uuidFn : ℕ → String)
    (osMs : List OSMatch) (instrMs : List (String × String)) (sysMs : List String)
    (st : ExtractSt) : ExtractSt :=
  (sysLoop text uuidFn sysMs
    (instrLoop text uuidFn instrMs (osLoop text uuidFn osMs ([], st)))).2

/-- `findNearestNodeName` (part_005 lines 313-321): last stored name (in
key order) contained in the context. -/
def findNearestNodeName (text : String) (nodeNames : List String) : Option String :=
  nodeNames.reverse.find? (fun nm => jsIncludes text nm)

/-- `text.substring(Math.max(0, index - 200), index)`. -/
def connContext (text : String) (idx : ℕ) : String :=
  String.mk ((text.data.drop (idx - 200)).take (idx - (idx - 200)))

/-- The source/target names of one connection match (part_005 lines
248-267): patterns 3-5 take the target from the capture and look the
source up near the match; a falsy (`null` or empty) name aborts. -/
def connNames (text : String) (nodeNames : List String) (i : ℕ) (m : ConnMatch) :
    Option (String × String) :=
  if i = 3 ∨ i = 4 ∨ i = 5 then
    match findNearestNodeName (connContext text m.index) nodeNames with
    | none => none
    | some src => if src = "" ∨ m.cap1 = "" then none else some (src, m.cap1)
  else
    if m.cap1 = "" ∨ m.cap2 = "" then none else some (m.cap1, m.cap2)

/-- One connection match processed (part_005 lines 247-303): both ends
must resolve in the node map, self-loops are skipped, the protocol is
detected (advancing the protocol patterns' `lastIndex` values) and the
connection is pushed unless the (source, target) pair already exists. -/
def connStep (text : String) (uuidFn : ℕ → String) (nodeNames : List String)
    (i : ℕ) (st : ExtractSt) (m : ConnMatch) : ExtractSt :=
  match connNames text nodeNames i m with
  | none => st
  | some names =>
    match mapGet st.nodes names.1, mapGet st.nodes names.2 with
    | some s, some t =>
      if s.id = t.id then st
      else
        { st with
          protoLI := (PatternHelpers.detectProtocol
            (PatternHelpers.getContextWindow text (names.1 ++ " " ++ names.2) 200)
            st.protoLI).2,
          connections :=
            (if st.connections.any
                (fun c => c.sourceId = s.id && c.targetId = t.id) then
              st.connections
            else
              st.connections ++
                [{ id := uuidFn st.ctr,
                   sourceId := s.id,
                   targetId := t.id,
                   protocol := (PatternHelpers.detectProtocol
                     (PatternHelpers.getContextWindow text
                       (names.1 ++ " " ++ names.2) 200) st.protoLI).1,
                   isEncrypted := PatternHelpers.isEncryptedProtocol
                     ((PatternHelpers.detectProtocol
                       (PatternHelpers.getContextWindow text
                         (names.1 ++ " " ++ names.2) 200) st.protoLI).1),
                   isPublicNetwork := false,
                   confidence := 80,
                   source := "text" }]),
          ctr :=
            (if st.connections.any
                (fun c => c.sourceId = s.id && c.targetId = t.id) then
              st.ctr
            else st.ctr + 1) }
    | some _, none => st
    | none, _ => st

/-- The matches of one connection pattern. -/
def connMatchLoop (text : String) (uuidFn : ℕ → String) (nodeNames : List String)
    (i : ℕ) : List ConnMatch → ExtractSt → ExtractSt
  | [], st => st
  | m :: rest, st =>
    connMatchLoop text uuidFn nodeNames i rest (connStep text uuidFn nodeNames i st m)

/-- The `connectionPatterns.forEach((pattern, index) => ...)` loop. -/
def connPatsLoop (text : String) (uuidFn : ℕ → String) (nodeNames : List String) :
    ℕ → List (List ConnMatch) → ExtractSt → ExtractSt
  | _, [], st => st
  | i, ms :: rest, st =>
    connPatsLoop text uuidFn nodeNames (i + 1) rest
      (connMatchLoop text uuidFn nodeNames i ms st)

/-- `extractConnectionsFromText` (part_005 lines 240-305); the node-name
list is read once at entry. -/
def extractConnectionsFromText (text : String) (uuidFn : ℕ → String)
    (cms : List (List ConnMatch)) (st : ExtractSt) : ExtractSt :=
  connPatsLoop text uuidFn (st.nodes.map Prod.fst) 0 cms st

/-- One vision node merged (part_005 lines 330-353): an existing node
(matched by name or truthy ip) keeps its data, gains the vision ip if it
had none, and its confidence becomes the rounded average; otherwise the
vision node is added with confidence scaled by 0.9. -/
def visionMergedNode (ex vn : ENode) : ENode :=
  { ex with
    ipAddress :=
      (if jsStrFalsy ex.ipAddress && !(jsStrFalsy vn.ipAddress) then vn.ipAddress
       else ex.ipAddress),
    confidence := ((jsRound ((ex.confidence + vn.confidence) / 2) : ℤ) : ℚ) }

/-- One vision node merged, continued: dispatch on the match. -/
def visionNodeStep (st : ExtractSt) (vn : ENode) : ExtractSt :=
  match findNodeByNameOrIP st.nodes vn.name vn.ipAddress with
  | some ex =>
    { st with nodes := mapSet st.nodes ex.name (visionMergedNode ex vn) }
  | none =>
    { st with
      nodes := addOrUpdateNode st.nodes { vn with confidence := vn.confidence * 0.9 } }

/-- The vision-node loop. -/
def visionNodesLoop : List ENode → ExtractSt → ExtractSt
  | [], st => st
  | vn :: rest, st => visionNodesLoop rest (visionNodeStep st vn)

/-- One vision connection merged (part_005 lines 358-372): pushed with
confidence scaled by 0.8 unless its (source, target) pair exists; note
there is no self-loop check on this path. -/
def visionConnStep (st : ExtractSt) (vc : EConn) : ExtractSt :=
  if st.connections.any (fun c => c.sourceId = vc.sourceId && c.targetId = vc.targetId)
  then st
  else
    { st with connections := st.connections ++
        [{ vc with source := "vision", confidence := vc.confidence * 0.8 }] }

/-- The vision-connection loop. -/
def visionConnsLoop : List EConn → ExtractSt → ExtractSt
  | [], st => st
  | vc :: rest, st => visionConnsLoop rest (visionConnStep st vc)

/-- `mergeVisionResults` (part_005 lines 327-374). -/
def EntityExtractor.mergeVisionResults (v : VisionResults) (st : ExtractSt) : ExtractSt :=
  visionConnsLoop v.connections (visionNodesLoop v.nodes st)

/-- The `if (visionResults) this.mergeVisionResults(visionResults)` step. -/
def mergeVisionOpt : Option VisionResults → ExtractSt → ExtractSt
  | none, st => st
  | some v, st => EntityExtractor.mergeVisionResults v st

/-- The adjusted (pre-clamp) node confidence of `calculateConfidence`
(part_005 lines 426-443). -/
def confAdj (n : ENode) : ℚ :=
  (match n.ipAddress with
   | some ip =>
     if ip ≠ "" && PatternHelpers.isValidIPv4 ip then n.confidence + 5
     else n.confidence - 15
   | none => n.confidence - 15)
  + (if n.services.length > 0 then 5 else 0)
  + (match n.mrole with
     | some r => if r ≠ "" then 5 else 0
     | none => 0)

/-- The node clamp of `calculateConfidence` (part_005 line 445). -/
def adjustNodeConf (n : ENode) : ENode :=
  { n with confidence := min 100 (max 0 (confAdj n)) }

/-- The node pass of `calculateConfidence`. -/
def confPass1 (m : List (String × ENode)) : List (String × ENode) :=
  m.map (fun p => (p.1, adjustNodeConf p.2))

/-- The per-connection adjustment of `calculateConfidence` (part_005
lines 449-458): only when both endpoint nodes resolve by id. -/
def confAdjustConn (m : List (String × ENode)) (c : EConn) : EConn :=
  match (m.map Prod.snd).find? (fun n => n.id = c.sourceId),
        (m.map Prod.snd).find? (fun n => n.id = c.targetId) with
  | some s, some t =>
    { c with confidence :=
        ((jsRound ((c.confidence + (s.confidence + t.confidence) / 2) / 2) : ℤ) : ℚ) }
  | some _, none => c
  | none, _ => c

/-- The connection pass of `calculateConfidence`. -/
def confPass2 (m : List (String × ENode)) (cs : List EConn) : List EConn :=
  cs.map (fun c => confAdjustConn m c)

/-- `calculateConfidence` (part_005 lines 423-459): the node pass runs
first, so the connection pass sees the clamped node confidences. -/
def EntityExtractor.calculateConfidence (st : ExtractSt) : ExtractSt :=
  { st with
    nodes := confPass1 st.nodes,
    connections := confPass2 (confPass1 st.nodes) st.connections }

/-- The `{ nodes: Array.from(this.nodes.values()), connections }` result. -/
def extractOut (st : ExtractSt) : (List ENode × List EConn) × ExtractSt :=
  ((st.nodes.map Prod.snd, st.connections), st)

/-- Steps 1-2 of `extract`: the reset and the text stages. -/
def textPhase (text : String) (inp : RegexIn) (uuidFn : ℕ → String)
    (st : ExtractSt) : ExtractSt :=
  extractConnectionsFromText text uuidFn inp.connMatches
    (extractFromSystemNames text uuidFn inp.osMatches inp.instrMatches inp.sysMatches
      (extractFromInlineFormat text uuidFn inp.inlineMatches
        (extractFromTableRows text uuidFn inp.tableMatches
          { st with nodes := [], connections := [] })))

/-- `EntityExtractor.extract` (part_005 lines 23-45): resets the node map
and the connections (but not the module-level pattern state), runs the
text stages, merges the optional vision results and adjusts confidences.
Returns the result together with the final state. -/
def EntityExtractor.extract (text : String) (inp : RegexIn)
    (vision : Option VisionResults) (uuidFn : ℕ → String) (st : ExtractSt) :
    (List ENode × List EConn) × ExtractSt :=
  extractOut (EntityExtractor.calculateConfidence
    (mergeVisionOpt vision (textPhase text inp uuidFn st)))

/-- The initial module state: all module-level pattern `lastIndex`
values are `0` when the module is first imported. -/
def st0 : ExtractSt :=
  { nodes := [], connections := [], ctr := 0,
    svcLI := [0, 0, 0, 0, 0, 0, 0, 0, 0],
    protoLI := [0, 0, 0, 0, 0, 0, 0, 0, 0],
    attackerLI := 0, databaseLI := 0 }

/-- The input text of the C3 run. -/
def c3text : String := "WS-01 (10.0.0.1) penetration"

/-- What the `matchAll`-style patterns yield on `c3text`: no table rows,
one inline match `WS-01 (10.0.0.1)`, no OS or instrumentation matches,
the one legacy system-name match `WS-01` (via `WS-\d+`), and no
connection matches. -/
def c3inp : RegexIn :=
  { tableMatches := [],
    inlineMatches := [("WS-01", "10.0.0.1")],
    osMatches := [],
    instrMatches := [],
    sysMatches := ["WS-01"],
    connMatches := [[], [], [], [], [], []] }

/-- A uuid supply for the concrete runs. -/
def c3uuid : ℕ → String := fun _ => "u"

/-- C3: extraction is not a deterministic function of the input text.
On `WS-01 (10.0.0.1) penetration`, the first `extract` run classifies
the node as an `actor` (the attacker role pattern finds `penetration`),
but a second run on the identical text classifies it as a `process`:
the module-level `/gi` role patterns keep their `lastIndex` between
`test` calls, and the first run left the attacker pattern's `lastIndex`
past the end of the only occurrence. -/
theorem C3_extract_not_deterministic :
    (EntityExtractor.extract c3text c3inp none c3uuid st0).1.1.map ENode.type =
      ["actor"] ∧
    (EntityExtractor.extract c3text c3inp none c3uuid
        ((EntityExtractor.extract c3text c3inp none c3uuid st0).2)).1.1.map ENode.type =
      ["process"] :=
  ⟨rfl, rfl⟩

/-! ### Claims C4 and C5: confidence ranges and connection-pair shape -/

/-- Two connections do not share a (source, target) pair. -/
def connPairNe (a b : EConn) : Prop :=
  ¬ (a.sourceId = b.sourceId ∧ a.targetId = b.targetId)

theorem tableStep_connections (text : String) (u : ℕ → String) (st : ExtractSt)
    (m : TableMatch) : (tableStep text u st m).connections = st.connections := by
  unfold tableStep
  split <;> rfl

theorem extractFromTableRows_connections (text : String) (u : ℕ → String) :
    ∀ (ms : List TableMatch) (st : ExtractSt),
      (extractFromTableRows text u ms st).connections = st.connections := by
  intro ms
  induction ms with
  | nil => intro st; rfl
  | cons m rest ih =>
    intro st
    simp only [extractFromTableRows]
    rw [ih, tableStep_connections]

theorem inlineStep_connections (text : String) (u : ℕ → String) (st : ExtractSt)
    (m : String × String) : (inlineStep text u st m).connections = st.connections := by
  unfold inlineStep
  split
  · rfl
  · split <;> rfl

theorem extractFromInlineFormat_connections (text : String) (u : ℕ → String) :
    ∀ (ms : List (String × String)) (st : ExtractSt),
      (extractFromInlineFormat text u ms st).connections = st.connections := by
  intro ms
  induction ms with
  | nil => intro st; rfl
  | cons m rest ih =>
    intro st
    simp only [extractFromInlineFormat]
    rw [ih, inlineStep_connections]

theorem osStep_connections (text : String) (u : ℕ → String)
    (acc : List String × ExtractSt) (m : OSMatch) :
    (osStep text u acc m).2.connections = acc.2.connections := by
  unfold osStep
  split
  · rfl
  · split <;> rfl

theorem osLoop_connections (text : String) (u : ℕ → String) :
    ∀ (ms : List OSMatch) (acc : List String × ExtractSt),
      (osLoop text u ms acc).2.connections = acc.2.connections := by
  intro ms
  induction ms with
  | nil => intro acc; rfl
  | cons m rest ih =>
    intro acc
    simp only [osLoop]
    rw [ih, osStep_connections]

theorem instrStep_connections (text : String) (u : ℕ → String)
    (acc : List String × ExtractSt) (m : String × String) :
    (instrStep text u acc m).2.connections = acc.2.connections := by
  unfold instrStep
  split
  · rfl
  · split <;> rfl

theorem instrLoop_connections (text : String) (u : ℕ → String) :
    ∀ (ms : List (String × String)) (acc : List String × ExtractSt),
      (instrLoop text u ms acc).2.connections = acc.2.connections := by
  intro ms
  induction ms with
  | nil => intro acc; rfl
  | cons m rest ih =>
    intro acc
    simp only [instrLoop]
    rw [ih, instrStep_connections]

theorem sysStep_connections (text : String) (u : ℕ → String)
    (acc : List String × ExtractSt) (m : String) :
    (sysStep text u acc m).2.connections = acc.2.connections := by
  unfold sysStep
  split
  · rfl
  · split <;> rfl

theorem sysLoop_connections (text : String) (u : ℕ → String) :
    ∀ (ms : List String) (acc : List String × ExtractSt),
      (sysLoop text u ms acc).2.connections = acc.2.connections := by
  intro ms
  induction ms with
  | nil => intro acc; rfl
  | cons m rest ih =>
    intro acc
    simp only [sysLoop]
    rw [ih, sysStep_connections]

theorem extractFromSystemNames_connections (text : String) (u : ℕ → String)
    (osMs : List OSMatch) (instrMs : List (String × String)) (sysMs : List String)
    (st : ExtractSt) :
    (extractFromSystemNames text u osMs instrMs sysMs st).connections =
      st.connections := by
  unfold extractFromSystemNames
  rw [sysLoop_connections, instrLoop_connections, osLoop_connections]

theorem visionNodeStep_connections (st : ExtractSt) (vn : ENode) :
    (visionNodeStep st vn).connections = st.connections := by
  unfold visionNodeStep
  split <;> rfl

theorem visionNodesLoop_connections :
    ∀ (vns : List ENode) (st : ExtractSt),
      (visionNodesLoop vns st).connections = st.connections := by
  intro vns
  induction vns with
  | nil => intro st; rfl
  | cons vn rest ih =>
    intro st
    simp only [visionNodesLoop]
    rw [ih, visionNodeStep_connections]

theorem connStep_inv (text : String) (u : ℕ → String) (nodeNames : List String)
    (i : ℕ) (st : ExtractSt) (m : ConnMatch)
    (hpw : st.connections.Pairwise connPairNe)
    (h80 : ∀ c ∈ st.connections, c.confidence = 80 ∧ c.sourceId ≠ c.targetId) :
    (connStep text u nodeNames i st m).connections.Pairwise connPairNe ∧
    ∀ c ∈ (connStep text u nodeNames i st m).connections,
      c.confidence = 80 ∧ c.sourceId ≠ c.targetId := by
  unfold connStep
  split
  · exact ⟨hpw, h80⟩
  split
  · rename_i s t hs ht
    by_cases hid : s.id = t.id
    · rw [if_pos hid]
      exact ⟨hpw, h80⟩
    · rw [if_neg hid]
      by_cases hdup : st.connections.any
          (fun c => c.sourceId = s.id && c.targetId = t.id) = true
      · simp only [if_pos hdup]
        exact ⟨hpw, h80⟩
      · simp only [if_neg hdup]
        have hnotin : ∀ c' ∈ st.connections,
            ¬ (c'.sourceId = s.id ∧ c'.targetId = t.id) := by
          intro c' hc' hcc
          apply hdup
          rw [List.any_eq_true]
          exact ⟨c', hc', by simp [hcc.1, hcc.2]⟩
        constructor
        · rw [List.pairwise_append]
          refine ⟨hpw, by simp [connPairNe], ?_⟩
          intro a ha b hb
          rw [List.mem_singleton] at hb
          subst hb
          intro hab
          exact hnotin a ha ⟨hab.1, hab.2⟩
        · intro c hc
          rw [List.mem_append] at hc
          rcases hc with hc | hc
          · exact h80 c hc
          · rw [List.mem_singleton] at hc
            subst hc
            exact ⟨rfl, hid⟩
  · exact ⟨hpw, h80⟩
  · exact ⟨hpw, h80⟩

theorem connMatchLoop_inv (text : String) (u : ℕ → String) (nodeNames : List String)
    (i : ℕ) :
    ∀ (ms : List ConnMatch) (st : ExtractSt),
      st.connections.Pairwise connPairNe →
      (∀ c ∈ st.connections, c.confidence = 80 ∧ c.sourceId ≠ c.targetId) →
      (connMatchLoop text u nodeNames i ms st).connections.Pairwise connPairNe ∧
      ∀ c ∈ (connMatchLoop text u nodeNames i ms st).connections,
        c.confidence = 80 ∧ c.sourceId ≠ c.targetId := by
  intro ms
  induction ms with
  | nil => intro st hpw h80; exact ⟨hpw, h80⟩
  | cons m rest ih =>
    intro st hpw h80
    simp only [connMatchLoop]
    obtain ⟨hpw2, h802⟩ := connStep_inv text u nodeNames i st m hpw h80
    exact ih _ hpw2 h802

theorem connPatsLoop_inv (text : String) (u : ℕ → String) (nodeNames : List String) :
    ∀ (cms : List (List ConnMatch)) (i : ℕ) (st : ExtractSt),
      st.connections.Pairwise connPairNe →
      (∀ c ∈ st.connections, c.confidence = 80 ∧ c.sourceId ≠ c.targetId) →
      (connPatsLoop text u nodeNames i cms st).connections.Pairwise connPairNe ∧
      ∀ c ∈ (connPatsLoop text u nodeNames i cms st).connections,
        c.confidence = 80 ∧ c.sourceId ≠ c.targetId := by
  intro cms
  induction cms with
  | nil => intro i st hpw h80; exact ⟨hpw, h80⟩
  | cons ms rest ih =>
    intro i st hpw h80
    simp only [connPatsLoop]
    obtain ⟨hpw2, h802⟩ := connMatchLoop_inv text u nodeNames i ms st hpw h80
    exact ih _ _ hpw2 h802

theorem textPhase_conns_ok (text : String) (inp : RegexIn) (u : ℕ → String)
    (st : ExtractSt) :
    (textPhase text inp u st).connections.Pairwise connPairNe ∧
    ∀ c ∈ (textPhase text inp u st).connections,
      c.confidence = 80 ∧ c.sourceId ≠ c.targetId := by
  unfold textPhase extractConnectionsFromText
  have h : (extractFromSystemNames text u inp.osMatches inp.instrMatches inp.sysMatches
      (extractFromInlineFormat text u inp.inlineMatches
        (extractFromTableRows text u inp.tableMatches
          { st with nodes := [], connections := [] }))).connections = [] := by
    rw [extractFromSystemNames_connections, extractFromInlineFormat_connections,
      extractFromTableRows_connections]
  exact connPatsLoop_inv text u _ inp.connMatches 0 _
    (by rw [h]; exact List.Pairwise.nil)
    (by rw [h]; intro c hc; simp at hc)

theorem visionConnStep_pairwise (st : ExtractSt) (vc : EConn)
    (hpw : st.connections.Pairwise connPairNe) :
    (visionConnStep st vc).connections.Pairwise connPairNe := by
  unfold visionConnStep
  by_cases hdup : st.connections.any
      (fun c => c.sourceId = vc.sourceId && c.targetId = vc.targetId) = true
  · rw [if_pos hdup]
    exact hpw
  · rw [if_neg hdup]
    rw [List.pairwise_append]
    refine ⟨hpw, by simp [connPairNe], ?_⟩
    intro a ha b hb
    rw [List.mem_singleton] at hb
    subst hb
    intro hab
    apply hdup
    rw [List.any_eq_true]
    exact ⟨a, ha, by simp [hab.1, hab.2]⟩

theorem visionConnsLoop_pairwise :
    ∀ (vcs : List EConn) (st : ExtractSt),
      st.connections.Pairwise connPairNe →
      (visionConnsLoop vcs st).connections.Pairwise connPairNe := by
  intro vcs
  induction vcs with
  | nil => intro st hpw; exact hpw
  | cons vc rest ih =>
    intro st hpw
    simp only [visionConnsLoop]
    exact ih _ (visionConnStep_pairwise st vc hpw)

theorem mergeVisionOpt_pairwise (v : Option VisionResults) (st : ExtractSt)
    (hpw : st.connections.Pairwise connPairNe) :
    (mergeVisionOpt v st).connections.Pairwise connPairNe := by
  cases v with
  | none => exact hpw
  | some v =>
    unfold mergeVisionOpt EntityExtractor.mergeVisionResults
    apply visionConnsLoop_pairwise
    rw [visionNodesLoop_connections]
    exact hpw

theorem confAdjustConn_sourceId (m : List (String × ENode)) (c : EConn) :
    (confAdjustConn m c).sourceId = c.sourceId := by
  unfold confAdjustConn
  split <;> rfl

theorem confAdjustConn_targetId (m : List (String × ENode)) (c : EConn) :
    (confAdjustConn m c).targetId = c.targetId := by
  unfold confAdjustConn
  split <;> rfl

theorem confPass2_pairwise (m : List (String × ENode)) (cs : List EConn)
    (hpw : cs.Pairwise connPairNe) : (confPass2 m cs).Pairwise connPairNe := by
  unfold confPass2
  rw [List.pairwise_map]
  refine hpw.imp ?_
  intro a b hab hcc
  apply hab
  rw [confAdjustConn_sourceId, confAdjustConn_sourceId] at hcc
  rw [confAdjustConn_targetId, confAdjustConn_targetId] at hcc
  exact hcc

/-- Rounding keeps a rational inside an integer interval. -/
theorem jsRound_mem_Icc (q : ℚ) (lo hi : ℤ) (h1 : (lo : ℚ) ≤ q)
    (h2 : q ≤ (hi : ℚ)) :
    (lo : ℚ) ≤ ((jsRound q : ℤ) : ℚ) ∧ ((jsRound q : ℤ) : ℚ) ≤ (hi : ℚ) := by
  unfold jsRound
  constructor
  · exact_mod_cast Int.le_floor.mpr (by push_cast; linarith)
  · have hlt : ⌊q + 1 / 2⌋ < hi + 1 := Int.floor_lt.mpr (by push_cast; linarith)
    exact_mod_cast (by omega : ⌊q + 1 / 2⌋ ≤ hi)

theorem confAdjustConn_bounds (m : List (String × ENode)) (c : EConn)
    (hm : ∀ n ∈ m.map Prod.snd, 0 ≤ n.confidence ∧ n.confidence ≤ 100)
    (hc : c.confidence = 80) :
    0 ≤ (confAdjustConn m c).confidence ∧ (confAdjustConn m c).confidence ≤ 100 := by
  unfold confAdjustConn
  split
  · rename_i s t hs ht
    have hsb := hm s (List.mem_of_find?_eq_some hs)
    have htb := hm t (List.mem_of_find?_eq_some ht)
    have h := jsRound_mem_Icc ((c.confidence + (s.confidence + t.confidence) / 2) / 2)
      0 100 (by push_cast; rw [hc] at *; linarith) (by push_cast; rw [hc] at *; linarith)
    constructor
    · show (0 : ℚ) ≤
        ((jsRound ((c.confidence + (s.confidence + t.confidence) / 2) / 2) : ℤ) : ℚ)
      exact_mod_cast h.1
    · show ((jsRound ((c.confidence + (s.confidence + t.confidence) / 2) / 2) : ℤ) : ℚ)
        ≤ 100
      exact_mod_cast h.2
  · rw [hc]; norm_num
  · rw [hc]; norm_num

theorem confPass2_bounds (m : List (String × ENode)) (cs : List EConn)
    (hm : ∀ n ∈ m.map Prod.snd, 0 ≤ n.confidence ∧ n.confidence ≤ 100)
    (h80 : ∀ c ∈ cs, c.confidence = 80) :
    ∀ c ∈ confPass2 m cs, 0 ≤ c.confidence ∧ c.confidence ≤ 100 := by
  intro c hc
  unfold confPass2 at hc
  obtain ⟨c0, hc0, hce⟩ := List.mem_map.mp hc
  rw [← hce]
  exact confAdjustConn_bounds m c0 hm (h80 c0 hc0)

theorem confPass1_bounds (m : List (String × ENode)) :
    ∀ n ∈ (confPass1 m).map Prod.snd, 0 ≤ n.confidence ∧ n.confidence ≤ 100 := by
  intro n hn
  unfold confPass1 at hn
  rw [List.map_map] at hn
  obtain ⟨p, hp, hpe⟩ := List.mem_map.mp hn
  have hne : n = adjustNodeConf p.2 := by
    rw [← hpe]; rfl
  subst hne
  unfold adjustNodeConf
  constructor
  · exact le_min (by norm_num) (le_max_left 0 _)
  · exact min_le_left _ _

/-- C4 (amended): every node returned by `extract` has confidence in
[0, 100] (the final pass clamps node confidences), for any input text,
match lists, vision results and initial state; and with no vision
results every returned *connection* also has confidence in [0, 100]
(text connections start at 80 and the rounded average against clamped
node confidences stays in range).  Vision connections are exempt from
both the clamp and the duplicate-pair-free adjustment — see the
counterexample, where a vision connection confidence of 200 is scaled to
160 and survives to the output. -/
theorem C4_confidence_in_range (text : String) (inp : RegexIn)
    (vision : Option VisionResults) (uuidFn : ℕ → String) (st : ExtractSt) :
    (∀ n ∈ (EntityExtractor.extract text inp vision uuidFn st).1.1,
      0 ≤ n.confidence ∧ n.confidence ≤ 100) ∧
    (vision = none →
      ∀ c ∈ (EntityExtractor.extract text inp vision uuidFn st).1.2,
        0 ≤ c.confidence ∧ c.confidence ≤ 100) := by
  constructor
  · intro n hn
    exact confPass1_bounds _ n hn
  · intro hv c hc
    subst hv
    exact confPass2_bounds _ _ (confPass1_bounds _)
      (fun c0 hc0 => ((textPhase_conns_ok text inp uuidFn st).2 c0 hc0).1) c hc

/-- C5 (amended): the connections returned by `extract` never contain
two entries with the same (sourceId, targetId) pair — both the text and
the vision push sites check for an existing pair first — and, when no
vision results are supplied, no returned connection is a self-loop (the
text path skips `sourceNode.id === targetNode.id`).  The vision path has
no self-loop check: see the counterexample. -/
theorem C5_connection_pairs (text : String) (inp : RegexIn)
    (vision : Option VisionResults) (uuidFn : ℕ → String) (st : ExtractSt) :
    ((EntityExtractor.extract text inp vision uuidFn st).1.2).Pairwise connPairNe ∧
    (vision = none →
      ∀ c ∈ (EntityExtractor.extract text inp vision uuidFn st).1.2,
        c.sourceId ≠ c.targetId) := by
  constructor
  · exact confPass2_pairwise _ _
      (mergeVisionOpt_pairwise vision _ (textPhase_conns_ok text inp uuidFn st).1)
  · intro hv c hc
    subst hv
    obtain ⟨c0, hc0, hce⟩ := List.mem_map.mp hc
    rw [← hce, confAdjustConn_sourceId, confAdjustConn_targetId]
    exact ((textPhase_conns_ok text inp uuidFn st).2 c0 hc0).2

/-- An extraction input with no matches at all. -/
def emptyInp : RegexIn :=
  { tableMatches := [], inlineMatches := [], osMatches := [], instrMatches := [],
    sysMatches := [], connMatches := [] }

/-- A vision connection with confidence 200. -/
def cexConn4 : EConn :=
  { id := "v1", sourceId := "s", targetId := "t", protocol := "TCP",
    isEncrypted := false, isPublicNetwork := false, confidence := 200,
    source := "vision" }

/-- Vision results carrying one connection with confidence 200. -/
def cexVision4 : VisionResults := { nodes := [], connections := [cexConn4] }

/-- C4 counterexample to the claim as stated: a vision connection with
confidence 200 is merged with confidence 200·0.8 = 160, and no clamp is
ever applied to connection confidences — the final pass only touches a
connection when both endpoint ids resolve to nodes, and even then it
only averages without clamping.  The output contains a connection whose
confidence exceeds 100. -/
theorem C4_counterexample :
    ∃ c ∈ (EntityExtractor.extract "" emptyInp (some cexVision4)
      (fun _ => "u") st0).1.2, ¬ (c.confidence ≤ 100) := by
  refine ⟨{ cexConn4 with confidence := (200 : ℚ) * 0.8 }, ?_, ?_⟩
  · exact List.mem_singleton_self _
  · show ¬ ((200 : ℚ) * 0.8 ≤ 100)
    norm_num

/-- A vision connection that is a self-loop. -/
def cexConn5 : EConn :=
  { id := "v1", sourceId := "x", targetId := "x", protocol := "TCP",
    isEncrypted := false, isPublicNetwork := false, confidence := 50,
    source := "vision" }

/-- Vision results carrying one self-loop connection. -/
def cexVision5 : VisionResults := { nodes := [], connections := [cexConn5] }

/-- C5 counterexample to the claim as stated: the vision merge path has
no self-loop check (only the duplicate-pair check), so a vision
connection whose sourceId equals its targetId survives to the output. -/
theorem C5_counterexample :
    ∃ c ∈ (EntityExtractor.extract "" emptyInp (some cexVision5)
      (fun _ => "u") st0).1.2, c.sourceId = c.targetId := by
  refine ⟨{ cexConn5 with confidence := (50 : ℚ) * 0.8 }, ?_, rfl⟩
  exact List.mem_singleton_self _

/-- Input text of the C4/C5 witnesses. -/
def demoText : String := "N1 (10.0.0.1) and N2 (10.0.0.2); N1 -> N2"

/-- The match lists the node and connection patterns produce on
`demoText`: two inline nodes and one arrow-notation connection match at
index 33. -/
def demoInp : RegexIn :=
  { tableMatches := [],
    inlineMatches := [("N1", "10.0.0.1"), ("N2", "10.0.0.2")],
    osMatches := [], instrMatches := [], sysMatches := [],
    connMatches := [[{ cap1 := "N1", cap2 := "N2", index := 33 }], [], [], [], [], []] }

/-- Concrete witness for the amended C4 at a two-node, one-connection
text-only extraction. -/
theorem C4_confidence_in_range_witness :
    (∀ n ∈ (EntityExtractor.extract demoText demoInp none
        (fun n => toString n) st0).1.1,
      0 ≤ n.confidence ∧ n.confidence ≤ 100) ∧
    (∀ c ∈ (EntityExtractor.extract demoText demoInp none
        (fun n => toString n) st0).1.2,
      0 ≤ c.confidence ∧ c.confidence ≤ 100) :=
  ⟨(C4_confidence_in_range demoText demoInp none (fun n => toString n) st0).1,
   (C4_confidence_in_range demoText demoInp none (fun n => toString n) st0).2 rfl⟩

/-- Concrete witness for the amended C5 at the same extraction. -/
theorem C5_connection_pairs_witness :
    ((EntityExtractor.extract demoText demoInp none
        (fun n => toString n) st0).1.2).Pairwise connPairNe ∧
    (∀ c ∈ (EntityExtractor.extract demoText demoInp none
        (fun n => toString n) st0).1.2,
      c.sourceId ≠ c.targetId) :=
  ⟨(C5_connection_pairs demoText demoInp none (fun n => toString n) st0).1,
   (C5_connection_pairs demoText demoInp none (fun n => toString n) st0).2 rfl⟩
